import Mathlib

/-!
Verification of the cluster fit helper (PandoraSDK, `src/Helpers/ClusterFitHelper.cc`)
against its natural-language specification.

The C++ source is shallowly embedded: machine floating point numbers are modelled
as real numbers, the `StatusCodeException` control flow is modelled with `Except`
(an `Except.error` value denotes an exception escaping the function under scrutiny),
and the caller-owned, mutated `ClusterFitResult` object is modelled by explicit
state passing.  Quantities that the C++ code computes inside `PerformLinearFit`
are broken out into individually named definitions so that theorems can speak
about intermediate values of the algorithm.
-/

open Classical

namespace PandoraFit

/-- Cartesian 3-vector, the basic arithmetic value type used by the fit helper.
The C++ type is `pandora::CartesianVector`; only the operations the fit helper
uses are modelled. -/
@[ext]
structure CartesianVector where
  x : ℝ
  y : ℝ
  z : ℝ

namespace CartesianVector

/-- Modelled from the spec: componentwise vector addition of the 3D vector primitive. -/
def add (u v : CartesianVector) : CartesianVector := ⟨u.x + v.x, u.y + v.y, u.z + v.z⟩

/-- Modelled from the spec: componentwise vector subtraction of the 3D vector primitive. -/
def sub (u v : CartesianVector) : CartesianVector := ⟨u.x - v.x, u.y - v.y, u.z - v.z⟩

/-- Modelled from the spec: uniform scaling of the 3D vector primitive. -/
def smul (a : ℝ) (v : CartesianVector) : CartesianVector := ⟨a * v.x, a * v.y, a * v.z⟩

/-- Modelled from the spec: negation, i.e. the C++ expression `v * -1.f`. -/
def neg (v : CartesianVector) : CartesianVector := ⟨-v.x, -v.y, -v.z⟩

/-- Modelled from the spec: dot product of the 3D vector primitive. -/
def dot (u v : CartesianVector) : ℝ := u.x * v.x + u.y * v.y + u.z * v.z

/-- Modelled from the spec: cross product of the 3D vector primitive. -/
def cross (u v : CartesianVector) : CartesianVector :=
  ⟨u.y * v.z - u.z * v.y, u.z * v.x - u.x * v.z, u.x * v.y - u.y * v.x⟩

/-- Modelled from the spec: squared magnitude of the 3D vector primitive. -/
def magSq (v : CartesianVector) : ℝ := v.x * v.x + v.y * v.y + v.z * v.z

/-- Modelled from the spec: magnitude of the 3D vector primitive. -/
noncomputable def mag (v : CartesianVector) : ℝ := Real.sqrt (magSq v)

/-- Modelled from the spec: unit-vector normalization of the 3D vector primitive
(`GetUnitVector`), i.e. scaling by the reciprocal of the magnitude. -/
noncomputable def unitVec (v : CartesianVector) : CartesianVector := smul (1 / mag v) v

/-- Modelled from the spec: cosine of the opening angle between two vectors
(`GetCosOpeningAngle`), the dot product divided by the product of magnitudes. -/
noncomputable def cosOpeningAngle (u v : CartesianVector) : ℝ := dot u v / (mag u * mag v)

/-- The zero vector. -/
def zero : CartesianVector := ⟨0, 0, 0⟩

end CartesianVector

/-- Machine epsilon of IEEE single precision, the value of
`std::numeric_limits<float>::epsilon()` used in the comparator and in the
`ClusterFitPoint` constructors. -/
noncomputable def floatEps : ℝ := 1 / 8388608

/-- Machine epsilon of IEEE double precision, the value of
`std::numeric_limits<double>::epsilon()` used in the degeneracy checks of
`PerformLinearFit`. -/
noncomputable def doubleEps : ℝ := 1 / 4503599627370496

/-- Status codes returned by the fit helper (the subset of `pandora::StatusCode`
that `ClusterFitHelper.cc` uses). -/
inductive StatusCode where
  | success
  | failure
  | notInitialized
  | outOfRange
  | invalidParameter
deriving DecidableEq, Repr

/-- One calorimeter hit, as seen through the accessors the fit helper calls
(`GetPositionVector`, `GetCellNormalVector`, `GetCellLengthScale`,
`GetInputEnergy`, `GetPseudoLayer`). -/
structure CaloHit where
  positionVector : CartesianVector
  cellNormalVector : CartesianVector
  cellLengthScale : ℝ
  inputEnergy : ℝ
  pseudoLayer : ℕ

/-- A cluster, as seen through the accessors the fit helper calls: the ordered
calo hit list (an ordered mapping layer → hits, modelled as an association list
in iteration order) and the per-layer centroid lookup `GetCentroid`.
The centroid lookup is modelled from the spec: the cluster exposes a precomputed
per-layer centroid position. -/
structure Cluster where
  orderedCaloHitList : List (ℕ × List CaloHit)
  centroid : ℕ → CartesianVector

/-- A point contributed to a fit, mirroring `pandora::ClusterFitPoint`. -/
structure ClusterFitPoint where
  position : CartesianVector
  cellNormalVector : CartesianVector
  cellSize : ℝ
  energy : ℝ
  pseudoLayer : ℕ

/-- The fit output record, mirroring `pandora::ClusterFitResult`. -/
structure ClusterFitResult where
  direction : CartesianVector
  intercept : CartesianVector
  chi2 : ℝ
  rms : ℝ
  radialDirectionCosine : ℝ
  successFlag : Bool

namespace ClusterFitResult

/-- Modelled from the spec: `ClusterFitResult::Reset` puts the caller-owned result
into its neutral/invalid state (all quantities cleared, success flag false). -/
def reset : ClusterFitResult := ⟨CartesianVector.zero, CartesianVector.zero, 0, 0, 0, false⟩

/-- Modelled from the spec: `ClusterFitResult::SetSuccessFlag` overwrites only the
success flag of the caller-owned result. -/
def setSuccessFlag (r : ClusterFitResult) (b : Bool) : ClusterFitResult :=
  { r with successFlag := b }

end ClusterFitResult

/-- The comparator `ClusterFitPoint::operator<` (ClusterFitHelper.cc lines 430-444):
compare the position difference componentwise, z first, then x, then y, with an
epsilon tolerance, and finally compare energies. -/
noncomputable def ClusterFitPoint.lt (a rhs : ClusterFitPoint) : Prop :=
  if |(CartesianVector.sub rhs.position a.position).z| > floatEps then
    (CartesianVector.sub rhs.position a.position).z > floatEps
  else if |(CartesianVector.sub rhs.position a.position).x| > floatEps then
    (CartesianVector.sub rhs.position a.position).x > floatEps
  else if |(CartesianVector.sub rhs.position a.position).y| > floatEps then
    (CartesianVector.sub rhs.position a.position).y > floatEps
  else
    a.energy > rhs.energy

/-- The `std::sort` call on a `ClusterFitPointList`, placing points in ascending
order with respect to `ClusterFitPoint.lt`. -/
noncomputable def sortPoints (l : List ClusterFitPoint) : List ClusterFitPoint :=
  l.mergeSort (fun a b => !(decide (ClusterFitPoint.lt b a)))

/-- The hit-based constructor `ClusterFitPoint::ClusterFitPoint(const CaloHit*)`
(lines 403-412): copies the hit accessors and throws `STATUS_CODE_INVALID_PARAMETER`
when the cell length scale is below machine epsilon. -/
noncomputable def clusterFitPointFromHit (h : CaloHit) : Except StatusCode ClusterFitPoint :=
  if h.cellLengthScale < floatEps then .error .invalidParameter
  else .ok ⟨h.positionVector, h.cellNormalVector, h.cellLengthScale, h.inputEnergy, h.pseudoLayer⟩

/-- The component-based constructor `ClusterFitPoint::ClusterFitPoint(position, ...)`
(lines 416-426): normalizes the supplied cell normal vector and throws
`STATUS_CODE_INVALID_PARAMETER` when the cell size is below machine epsilon. -/
noncomputable def clusterFitPointMk (position cellNormalVector : CartesianVector)
    (cellSize energy : ℝ) (pseudoLayer : ℕ) : Except StatusCode ClusterFitPoint :=
  if cellSize < floatEps then .error .invalidParameter
  else .ok ⟨position, CartesianVector.unitVec cellNormalVector, cellSize, energy, pseudoLayer⟩

/-- Conversion of a list of hits into fit points, in order, propagating the first
constructor exception (the inner loops of `FitStart`, `FitEnd`, `FitFullCluster`
and `FitLayers`). -/
noncomputable def buildPoints : List CaloHit → Except StatusCode (List ClusterFitPoint)
  | [] => .ok []
  | h :: t =>
    match clusterFitPointFromHit h with
    | .error e => .error e
    | .ok p =>
      match buildPoints t with
      | .error e => .error e
      | .ok ps => .ok (p :: ps)

/-- The layer-collecting loop of `FitStart` (lines 34-46): the occupied layer count
is incremented and checked against the bound before the layer's hits are processed,
so iteration stops before the (N+1)-th occupied layer. -/
def collectFirstLayers (maxOccupiedLayers : ℕ) (occupiedLayerCount : ℕ) :
    List (ℕ × List CaloHit) → List CaloHit
  | [] => []
  | layer :: rest =>
    if occupiedLayerCount + 1 > maxOccupiedLayers then []
    else layer.2 ++ collectFirstLayers maxOccupiedLayers (occupiedLayerCount + 1) rest

/-- The layer-selection loop of `FitLayers` and `FitLayerCentroids` (lines 127-141,
170-197): skip layers below the start layer, stop at the first layer beyond the end
layer (relying on ascending iteration order), keep the rest. -/
def selectRange (startLayer endLayer : ℕ) :
    List (ℕ × List CaloHit) → List (ℕ × List CaloHit)
  | [] => []
  | (k, hs) :: rest =>
    if startLayer > k then selectRange startLayer endLayer rest
    else if endLayer < k then []
    else (k, hs) :: selectRange startLayer endLayer rest

end PandoraFit

namespace PandoraFit

open CartesianVector

/-- The fixed reference axis (`chosenAxis`, line 261) that the initial direction
estimate is rotated onto. -/
def chosenAxis : CartesianVector := ⟨0, 0, 1⟩

/-- The variable `cosTheta` (line 262): cosine of the opening angle between the
initial direction estimate and the chosen axis. -/
noncomputable def cosT (d : CartesianVector) : ℝ := cosOpeningAngle d chosenAxis

/-- The variable `sinTheta` (line 263): `std::sin(std::acos(cosTheta))`. -/
noncomputable def sinT (d : CartesianVector) : ℝ := Real.sin (Real.arccos (cosT d))

/-- The variable `rotationAxis` (lines 265-266): a fixed axis orthogonal to the
reference when the initial direction is nearly (anti)parallel to it, otherwise
the normalized cross product of the initial direction with the reference. -/
noncomputable def rotationAxis (d : CartesianVector) : CartesianVector :=
  if |cosT d| > 99 / 100 then ⟨1, 0, 0⟩ else unitVec (cross d chosenAxis)

/-- The forward Rodrigues rotation (lines 273-281), mapping a centroid-relative
position to its rotated coordinates `(p, q, r)`. -/
noncomputable def rotate (ax : CartesianVector) (c s : ℝ) (v : CartesianVector) :
    CartesianVector :=
  ⟨(c + ax.x * ax.x * (1 - c)) * v.x + (ax.x * ax.y * (1 - c) - ax.z * s) * v.y +
      (ax.x * ax.z * (1 - c) + ax.y * s) * v.z,
    (ax.y * ax.x * (1 - c) + ax.z * s) * v.x + (c + ax.y * ax.y * (1 - c)) * v.y +
      (ax.y * ax.z * (1 - c) - ax.x * s) * v.z,
    (ax.z * ax.x * (1 - c) - ax.y * s) * v.x + (ax.z * ax.y * (1 - c) + ax.x * s) * v.y +
      (c + ax.z * ax.z * (1 - c)) * v.z⟩

/-- The inverse Rodrigues rotation (lines 310-330), mapping a rotated-frame vector
back to the original frame. -/
noncomputable def rotateBack (ax : CartesianVector) (c s : ℝ) (v : CartesianVector) :
    CartesianVector :=
  ⟨(c + ax.x * ax.x * (1 - c)) * v.x + (ax.x * ax.y * (1 - c) + ax.z * s) * v.y +
      (ax.x * ax.z * (1 - c) - ax.y * s) * v.z,
    (ax.y * ax.x * (1 - c) - ax.z * s) * v.x + (c + ax.y * ax.y * (1 - c)) * v.y +
      (ax.y * ax.z * (1 - c) + ax.x * s) * v.z,
    (ax.z * ax.x * (1 - c) + ax.y * s) * v.x + (ax.z * ax.y * (1 - c) - ax.x * s) * v.y +
      (c + ax.z * ax.z * (1 - c)) * v.z⟩

/-- Rotated, centroid-relative coordinates `(p, q, r)` of one fit point
(lines 268-281). -/
noncomputable def rotCoord (central d : CartesianVector) (pt : ClusterFitPoint) :
    CartesianVector :=
  rotate (rotationAxis d) (cosT d) (sinT d) (sub pt.position central)

/-- Accumulated sum `sumP` of the first loop of `PerformLinearFit` (line 283). -/
noncomputable def sumP (central d : CartesianVector) (l : List ClusterFitPoint) : ℝ :=
  (l.map fun pt => (rotCoord central d pt).x).sum

/-- Accumulated sum `sumQ` of the first loop of `PerformLinearFit` (line 283). -/
noncomputable def sumQ (central d : CartesianVector) (l : List ClusterFitPoint) : ℝ :=
  (l.map fun pt => (rotCoord central d pt).y).sum

/-- Accumulated sum `sumR` of the first loop of `PerformLinearFit` (line 283). -/
noncomputable def sumR (central d : CartesianVector) (l : List ClusterFitPoint) : ℝ :=
  (l.map fun pt => (rotCoord central d pt).z).sum

/-- Accumulated sum `sumPR` of the first loop of `PerformLinearFit` (line 284). -/
noncomputable def sumPR (central d : CartesianVector) (l : List ClusterFitPoint) : ℝ :=
  (l.map fun pt => (rotCoord central d pt).x * (rotCoord central d pt).z).sum

/-- Accumulated sum `sumQR` of the first loop of `PerformLinearFit` (line 284). -/
noncomputable def sumQR (central d : CartesianVector) (l : List ClusterFitPoint) : ℝ :=
  (l.map fun pt => (rotCoord central d pt).y * (rotCoord central d pt).z).sum

/-- Accumulated sum `sumRR` of the first loop of `PerformLinearFit` (line 284). -/
noncomputable def sumRR (central d : CartesianVector) (l : List ClusterFitPoint) : ℝ :=
  (l.map fun pt => (rotCoord central d pt).z * (rotCoord central d pt).z).sum

/-- Accumulated sum `sumWeights` (line 285); every point has unit weight, so this
is the number of points, which is also the `nPoints` of line 375. -/
def sumWeights (l : List ClusterFitPoint) : ℝ := l.length

/-- The shared regression denominator `denominatorR` (line 290). -/
noncomputable def denominatorR (central d : CartesianVector) (l : List ClusterFitPoint) : ℝ :=
  sumR central d l * sumR central d l - sumWeights l * sumRR central d l

/-- Regression slope `aP` (line 297). -/
noncomputable def aP (central d : CartesianVector) (l : List ClusterFitPoint) : ℝ :=
  (sumR central d l * sumP central d l - sumWeights l * sumPR central d l) /
    denominatorR central d l

/-- Regression offset `bP` (line 298). -/
noncomputable def bP (central d : CartesianVector) (l : List ClusterFitPoint) : ℝ :=
  (sumP central d l - aP central d l * sumR central d l) / sumWeights l

/-- Regression slope `aQ` (line 299). -/
noncomputable def aQ (central d : CartesianVector) (l : List ClusterFitPoint) : ℝ :=
  (sumR central d l * sumQ central d l - sumWeights l * sumQR central d l) /
    denominatorR central d l

/-- Regression offset `bQ` (line 300). -/
noncomputable def bQ (central d : CartesianVector) (l : List ClusterFitPoint) : ℝ :=
  (sumQ central d l - aQ central d l * sumR central d l) / sumWeights l

/-- The normalization factor `magnitude` of the slope vector `(aP, aQ, 1)`
(line 305). -/
noncomputable def fitMagnitude (central d : CartesianVector) (l : List ClusterFitPoint) : ℝ :=
  Real.sqrt (1 + aP central d l * aP central d l + aQ central d l * aQ central d l)

/-- The refined direction rotated back to the original frame (lines 310-319),
before any orientation flip. -/
noncomputable def dirRaw (central d : CartesianVector) (l : List ClusterFitPoint) :
    CartesianVector :=
  rotateBack (rotationAxis d) (cosT d) (sinT d)
    ⟨aP central d l / fitMagnitude central d l, aQ central d l / fitMagnitude central d l,
      1 / fitMagnitude central d l⟩

/-- The intercept of the fitted line, rotated back and translated (lines 324-330). -/
noncomputable def interceptV (central d : CartesianVector) (l : List ClusterFitPoint) :
    CartesianVector :=
  add central
    (rotateBack (rotationAxis d) (cosT d) (sinT d) ⟨bP central d l, bQ central d l, 0⟩)

/-- The radial direction cosine as first computed on line 334, before the step-6
sign correction. -/
noncomputable def dirCosRaw (central d : CartesianVector) (l : List ClusterFitPoint) : ℝ :=
  dot (dirRaw central d l) (interceptV central d l) / mag (interceptV central d l)

/-- The direction after the step-6 outward canonicalization (lines 336-340). -/
noncomputable def dir6 (central d : CartesianVector) (l : List ClusterFitPoint) :
    CartesianVector :=
  if dirCosRaw central d l < 0 then neg (dirRaw central d l) else dirRaw central d l

/-- The radial direction cosine after the step-6 sign correction (lines 336-340);
this is the value stored in the result. -/
noncomputable def dirCos6 (central d : CartesianVector) (l : List ClusterFitPoint) : ℝ :=
  if dirCosRaw central d l < 0 then -dirCosRaw central d l else dirCosRaw central d l

/-- Accumulated chi-square contribution `chi2_P` of the second loop
(lines 360-364). -/
noncomputable def chi2P (central d : CartesianVector) (l : List ClusterFitPoint) : ℝ :=
  (l.map fun pt =>
    (((rotCoord central d pt).x - aP central d l * (rotCoord central d pt).z -
        bP central d l) / (pt.cellSize / (346 / 100))) *
      (((rotCoord central d pt).x - aP central d l * (rotCoord central d pt).z -
        bP central d l) / (pt.cellSize / (346 / 100)))).sum

/-- Accumulated chi-square contribution `chi2_Q` of the second loop
(lines 360-365). -/
noncomputable def chi2Q (central d : CartesianVector) (l : List ClusterFitPoint) : ℝ :=
  (l.map fun pt =>
    (((rotCoord central d pt).y - aQ central d l * (rotCoord central d pt).z -
        bQ central d l) / (pt.cellSize / (346 / 100))) *
      (((rotCoord central d pt).y - aQ central d l * (rotCoord central d pt).z -
        bQ central d l) / (pt.cellSize / (346 / 100)))).sum

/-- Accumulated squared perpendicular displacement `rms` of the second loop
(lines 367-368). -/
noncomputable def rmsSum (central d : CartesianVector) (l : List ClusterFitPoint) : ℝ :=
  (l.map fun pt =>
    magSq (cross (dir6 central d l) (sub pt.position (interceptV central d l)))).sum

/-- Accumulated sum `sumA` of along-direction coordinates (lines 370-372). -/
noncomputable def sumA (central d : CartesianVector) (l : List ClusterFitPoint) : ℝ :=
  (l.map fun pt => dot (dir6 central d l) (sub pt.position (interceptV central d l))).sum

/-- Accumulated sum `sumL` of layer indices (lines 371-372). -/
noncomputable def sumL (l : List ClusterFitPoint) : ℝ :=
  (l.map fun pt => (pt.pseudoLayer : ℝ)).sum

/-- Accumulated sum `sumAL` of products of along-direction coordinate and layer
index (line 372). -/
noncomputable def sumAL (central d : CartesianVector) (l : List ClusterFitPoint) : ℝ :=
  (l.map fun pt =>
    dot (dir6 central d l) (sub pt.position (interceptV central d l)) *
      (pt.pseudoLayer : ℝ)).sum

/-- Accumulated sum `sumLL` of squared layer indices (line 372). -/
noncomputable def sumLL (l : List ClusterFitPoint) : ℝ :=
  (l.map fun pt => (pt.pseudoLayer : ℝ) * (pt.pseudoLayer : ℝ)).sum

/-- The layer-correlation denominator `denominatorL` (line 376). -/
noncomputable def denominatorL (l : List ClusterFitPoint) : ℝ :=
  sumL l * sumL l - sumWeights l * sumLL l

/-- The condition of the step-7 layer-correlation flip (lines 378-382): the
correlation denominator is non-degenerate and the slope of the along-direction
coordinate against the layer index is negative. -/
noncomputable def flipCondition (central d : CartesianVector)
    (l : List ClusterFitPoint) : Prop :=
  |denominatorL l| > doubleEps ∧
    (sumL l * sumA central d l - sumWeights l * sumAL central d l) / denominatorL l < 0

/-- The direction finally stored in the result (lines 378-384): the step-6
direction, negated once more when the layer-correlation flip fires. -/
noncomputable def finalDirection (central d : CartesianVector)
    (l : List ClusterFitPoint) : CartesianVector :=
  if flipCondition central d l then neg (dir6 central d l) else dir6 central d l

/-- The regression core `ClusterFitHelper::PerformLinearFit` (lines 245-398):
sort the points, check the regression denominator for degeneracy, and either
fail without touching the result or populate every result field and succeed. -/
noncomputable def performLinearFit (central d : CartesianVector)
    (l : List ClusterFitPoint) (res : ClusterFitResult) : StatusCode × ClusterFitResult :=
  if |denominatorR central d (sortPoints l)| < doubleEps then (.failure, res)
  else
    (.success,
      { direction := finalDirection central d (sortPoints l)
        intercept := interceptV central d (sortPoints l)
        chi2 := (chi2P central d (sortPoints l) + chi2Q central d (sortPoints l)) /
          sumWeights (sortPoints l)
        rms := Real.sqrt (rmsSum central d (sortPoints l) / sumWeights (sortPoints l))
        radialDirectionCosine := dirCos6 central d (sortPoints l)
        successFlag := true })

/-- Componentwise sum of the positions of a list of fit points (`positionSum`,
lines 224-231). -/
noncomputable def posSum (l : List ClusterFitPoint) : CartesianVector :=
  ⟨(l.map fun pt => pt.position.x).sum, (l.map fun pt => pt.position.y).sum,
    (l.map fun pt => pt.position.z).sum⟩

/-- Componentwise sum of the cell normal vectors of a list of fit points
(`normalVectorSum`, lines 225-231). -/
noncomputable def normalSum (l : List ClusterFitPoint) : CartesianVector :=
  ⟨(l.map fun pt => pt.cellNormalVector.x).sum, (l.map fun pt => pt.cellNormalVector.y).sum,
    (l.map fun pt => pt.cellNormalVector.z).sum⟩

/-- The fit engine entry `ClusterFitHelper::FitPoints` (lines 211-241): sort,
require at least two points (returning `InvalidParameter` with the result
untouched otherwise), reset the result, form the centroid and the normalized
normal-vector sum, and delegate to `PerformLinearFit`. -/
noncomputable def fitPoints (l : List ClusterFitPoint) (res : ClusterFitResult) :
    StatusCode × ClusterFitResult :=
  if (sortPoints l).length < 2 then (.invalidParameter, res)
  else
    performLinearFit (smul (1 / sumWeights (sortPoints l)) (posSum (sortPoints l)))
      (unitVec (normalSum (sortPoints l))) (sortPoints l) ClusterFitResult.reset

/-- The entry point `ClusterFitHelper::FitStart` (lines 20-49).  An `Except.error`
value models a `StatusCodeException` escaping the function. -/
noncomputable def fitStart (pCluster : Cluster) (maxOccupiedLayers : ℕ)
    (res : ClusterFitResult) : Except StatusCode (StatusCode × ClusterFitResult) :=
  if maxOccupiedLayers < 2 then .ok (.invalidParameter, res)
  else if pCluster.orderedCaloHitList.length = 0 then .ok (.notInitialized, res)
  else if pCluster.orderedCaloHitList.length < 2 then .ok (.outOfRange, res)
  else
    match buildPoints (collectFirstLayers maxOccupiedLayers 0 pCluster.orderedCaloHitList) with
    | .error err => .error err
    | .ok pts => .ok (fitPoints pts res)

/-- The entry point `ClusterFitHelper::FitEnd` (lines 53-82), identical to
`FitStart` but iterating the layers in descending order. -/
noncomputable def fitEnd (pCluster : Cluster) (maxOccupiedLayers : ℕ)
    (res : ClusterFitResult) : Except StatusCode (StatusCode × ClusterFitResult) :=
  if maxOccupiedLayers < 2 then .ok (.invalidParameter, res)
  else if pCluster.orderedCaloHitList.length = 0 then .ok (.notInitialized, res)
  else if pCluster.orderedCaloHitList.length < 2 then .ok (.outOfRange, res)
  else
    match buildPoints
        (collectFirstLayers maxOccupiedLayers 0 pCluster.orderedCaloHitList.reverse) with
    | .error err => .error err
    | .ok pts => .ok (fitPoints pts res)

/-- The entry point `ClusterFitHelper::FitFullCluster` (lines 86-107). -/
noncomputable def fitFullCluster (pCluster : Cluster) (res : ClusterFitResult) :
    Except StatusCode (StatusCode × ClusterFitResult) :=
  if pCluster.orderedCaloHitList.length = 0 then .ok (.notInitialized, res)
  else if pCluster.orderedCaloHitList.length < 2 then .ok (.outOfRange, res)
  else
    match buildPoints (pCluster.orderedCaloHitList.flatMap fun layer => layer.2) with
    | .error err => .error err
    | .ok pts => .ok (fitPoints pts res)

/-- The entry point `ClusterFitHelper::FitLayers` (lines 111-144). -/
noncomputable def fitLayers (pCluster : Cluster) (startLayer endLayer : ℕ)
    (res : ClusterFitResult) : Except StatusCode (StatusCode × ClusterFitResult) :=
  if startLayer ≥ endLayer then .ok (.invalidParameter, res)
  else if pCluster.orderedCaloHitList.length = 0 then .ok (.notInitialized, res)
  else if pCluster.orderedCaloHitList.length < 2 then .ok (.outOfRange, res)
  else
    match buildPoints
        ((selectRange startLayer endLayer pCluster.orderedCaloHitList).flatMap
          fun layer => layer.2) with
    | .error err => .error err
    | .ok pts => .ok (fitPoints pts res)

/-- Per-layer sum of cell length scales (`cellLengthScaleSum`, lines 185-193). -/
noncomputable def layerCellSizeSum (hs : List CaloHit) : ℝ :=
  (hs.map fun h => h.cellLengthScale).sum

/-- Per-layer sum of input energies (`cellEnergySum`, lines 185-193). -/
noncomputable def layerEnergySum (hs : List CaloHit) : ℝ :=
  (hs.map fun h => h.inputEnergy).sum

/-- Per-layer componentwise sum of cell normal vectors (`cellNormalVectorSum`,
lines 186-193). -/
noncomputable def layerNormalSum (hs : List CaloHit) : CartesianVector :=
  ⟨(hs.map fun h => h.cellNormalVector.x).sum, (hs.map fun h => h.cellNormalVector.y).sum,
    (hs.map fun h => h.cellNormalVector.z).sum⟩

/-- The centroid-collecting loop of `FitLayerCentroids` (lines 170-197): for each
layer in range, fail with `STATUS_CODE_FAILURE` on an unexpectedly empty layer,
otherwise emit one fit point built from the precomputed layer centroid and the
per-layer averages; constructor exceptions propagate to the caller. -/
noncomputable def buildCentroids (pCluster : Cluster) (startLayer endLayer : ℕ) :
    List (ℕ × List CaloHit) → Except StatusCode (List ClusterFitPoint)
  | [] => .ok []
  | (k, hs) :: rest =>
    if startLayer > k then buildCentroids pCluster startLayer endLayer rest
    else if endLayer < k then .ok []
    else if hs.length = 0 then .error .failure
    else
      match clusterFitPointMk (pCluster.centroid k) (unitVec (layerNormalSum hs))
          (layerCellSizeSum hs / hs.length) (layerEnergySum hs / hs.length) k with
      | .error er => .error er
      | .ok p =>
        match buildCentroids pCluster startLayer endLayer rest with
        | .error er => .error er
        | .ok ps => .ok (p :: ps)

/-- The entry point `ClusterFitHelper::FitLayerCentroids` (lines 148-207).  The
whole body runs inside a try block; a `StatusCodeException` is caught, the
success flag is cleared and the exception's status code is returned. -/
noncomputable def fitLayerCentroids (pCluster : Cluster) (startLayer endLayer : ℕ)
    (res : ClusterFitResult) : Except StatusCode (StatusCode × ClusterFitResult) :=
  if startLayer ≥ endLayer then .ok (.invalidParameter, res)
  else if pCluster.orderedCaloHitList.length = 0 then .ok (.notInitialized, res)
  else if pCluster.orderedCaloHitList.length < 2 then .ok (.outOfRange, res)
  else
    match buildCentroids pCluster startLayer endLayer pCluster.orderedCaloHitList with
    | .error er => .ok (er, res.setSuccessFlag false)
    | .ok pts => .ok (fitPoints pts res)

end PandoraFit

namespace PandoraFit

open CartesianVector

/-- The centroid that `FitPoints` (line 233) hands to `PerformLinearFit`: the
arithmetic mean position of the fit points. -/
noncomputable def fitCentroid (l : List ClusterFitPoint) : CartesianVector :=
  smul (1 / sumWeights l) (posSum l)

/-- The initial direction estimate that `FitPoints` (line 233) hands to
`PerformLinearFit`: the unit-normalized sum of the points' cell normal vectors. -/
noncomputable def fitInitialDir (l : List ClusterFitPoint) : CartesianVector :=
  unitVec (normalSum l)

/-- Strict lexicographic comparison on the key tuple (z ascending, x ascending,
y ascending, energy descending).  This is the ordering described by the spec up
to the direction of the position keys; it is the candidate meaning of the
comparator away from epsilon-sized coordinate differences. -/
def ascLexLt (a b : ClusterFitPoint) : Prop :=
  a.position.z < b.position.z ∨
    (a.position.z = b.position.z ∧
      (a.position.x < b.position.x ∨
        (a.position.x = b.position.x ∧
          (a.position.y < b.position.y ∨
            (a.position.y = b.position.y ∧ b.energy < a.energy)))))

/-- Two fit points are coordinate-separated when each of their coordinate
differences is either exactly zero or larger than the comparator's epsilon
tolerance in magnitude. -/
def coordSeparated (a b : ClusterFitPoint) : Prop :=
  (b.position.z - a.position.z = 0 ∨ |b.position.z - a.position.z| > floatEps) ∧
    (b.position.x - a.position.x = 0 ∨ |b.position.x - a.position.x| > floatEps) ∧
    (b.position.y - a.position.y = 0 ∨ |b.position.y - a.position.y| > floatEps)

/-- An example fit point sitting on the z axis with unit normal along z, unit
cell size and unit energy, at an arbitrary height and layer. -/
def examplePoint (zv : ℝ) (layer : ℕ) : ClusterFitPoint :=
  ⟨⟨0, 0, zv⟩, ⟨0, 0, 1⟩, 1, 1, layer⟩

/-- Three collinear points whose layer indices decrease while their z coordinates
increase, so the layer-correlation slope of the fitted line is negative and the
step-7 flip fires. -/
def exampleFlip : List ClusterFitPoint := [examplePoint 0 2, examplePoint 1 1, examplePoint 2 0]

/-- A fit result that is not in the reset state (stale chi-square). -/
def staleResult : ClusterFitResult := { ClusterFitResult.reset with chi2 := 1 }

/-- A well-formed example hit at a given height and layer, with unit normal,
unit cell length scale and unit energy. -/
def exampleHit (zv : ℝ) (layer : ℕ) : CaloHit := ⟨⟨0, 0, zv⟩, ⟨0, 0, 1⟩, 1, 1, layer⟩

/-- A hit whose cell length scale is zero, making the `ClusterFitPoint`
constructor throw. -/
def badHit : CaloHit := ⟨⟨0, 0, 0⟩, ⟨0, 0, 1⟩, 0, 1, 0⟩

/-- A two-layer cluster whose first layer holds a hit with zero cell length
scale. -/
def badCluster : Cluster :=
  ⟨[(0, [badHit]), (1, [exampleHit 1 1])], fun _ => ⟨0, 0, 0⟩⟩

/-- A cluster with no occupied layers. -/
def emptyCluster : Cluster := ⟨[], fun _ => ⟨0, 0, 0⟩⟩

/-- A two-layer cluster whose first included layer is unexpectedly empty. -/
def emptyLayerCluster : Cluster :=
  ⟨[(0, []), (1, [exampleHit 1 1])], fun _ => ⟨0, 0, 0⟩⟩

/-- A two-layer, one-hit-per-layer cluster whose layer-0 hit has zero cell
length scale, and whose per-layer centroids coincide with the hit positions. -/
def singletonBadCluster : Cluster :=
  ⟨[(0, [badHit]), (1, [exampleHit 1 1])],
    fun k => if k = 0 then ⟨0, 0, 0⟩ else ⟨0, 0, 1⟩⟩

/-- A two-layer, one-hit-per-layer cluster of well-formed hits whose per-layer
centroids coincide with the hit positions. -/
def singletonGoodCluster : Cluster :=
  ⟨[(0, [exampleHit 0 0]), (1, [exampleHit 1 1])],
    fun k => if k = 0 then ⟨0, 0, 0⟩ else ⟨0, 0, 1⟩⟩

end PandoraFit

namespace PandoraFit

/-- Comparator example: a point at the origin with zero energy. -/
def c2a : ClusterFitPoint := ⟨⟨0, 0, 0⟩, ⟨0, 0, 1⟩, 1, 0, 0⟩

/-- Comparator example: a point one unit above `c2a` with zero energy. -/
def c2b : ClusterFitPoint := ⟨⟨0, 0, 1⟩, ⟨0, 0, 1⟩, 1, 0, 0⟩

/-- Comparator example: the highest-energy point of an epsilon-spaced chain. -/
def c2p : ClusterFitPoint := ⟨⟨0, 0, 0⟩, ⟨0, 0, 1⟩, 1, 3, 0⟩

/-- Comparator example: the middle point of an epsilon-spaced chain, one machine
epsilon below `c2p`. -/
noncomputable def c2q : ClusterFitPoint := ⟨⟨0, 0, -floatEps⟩, ⟨0, 0, 1⟩, 1, 2, 0⟩

/-- Comparator example: the lowest point of an epsilon-spaced chain, two machine
epsilons below `c2p`. -/
noncomputable def c2r : ClusterFitPoint := ⟨⟨0, 0, -2 * floatEps⟩, ⟨0, 0, 1⟩, 1, 1, 0⟩

/-- A fit point at the origin used to build a degenerate (zero spread) input. -/
def degeneratePoint : ClusterFitPoint := ⟨⟨0, 0, 0⟩, ⟨0, 0, 1⟩, 1, 1, 0⟩

/-- Two coincident fit points: a list with at least two points and no spread
along any direction. -/
def degenerateList : List ClusterFitPoint := [degeneratePoint, degeneratePoint]

end PandoraFit

namespace PandoraFit

open CartesianVector

/-- Sorting is a permutation of the input list. -/
lemma sortPoints_perm (l : List ClusterFitPoint) : (sortPoints l).Perm l :=
  List.mergeSort_perm l _

/-- Sorting preserves the length of the input list. -/
lemma sortPoints_length (l : List ClusterFitPoint) : (sortPoints l).length = l.length :=
  List.length_mergeSort l

/-- The weight sum only depends on the multiset of points. -/
lemma sumWeights_perm {l l' : List ClusterFitPoint} (h : l.Perm l') :
    sumWeights l = sumWeights l' := by
  simp [sumWeights, h.length_eq]

/-- The sum `sumP` only depends on the multiset of points. -/
lemma sumP_perm {central d : CartesianVector} {l l' : List ClusterFitPoint}
    (h : l.Perm l') : sumP central d l = sumP central d l' :=
  List.Perm.sum_eq (h.map _)

/-- The sum `sumQ` only depends on the multiset of points. -/
lemma sumQ_perm {central d : CartesianVector} {l l' : List ClusterFitPoint}
    (h : l.Perm l') : sumQ central d l = sumQ central d l' :=
  List.Perm.sum_eq (h.map _)

/-- The sum `sumR` only depends on the multiset of points. -/
lemma sumR_perm {central d : CartesianVector} {l l' : List ClusterFitPoint}
    (h : l.Perm l') : sumR central d l = sumR central d l' :=
  List.Perm.sum_eq (h.map _)

/-- The sum `sumPR` only depends on the multiset of points. -/
lemma sumPR_perm {central d : CartesianVector} {l l' : List ClusterFitPoint}
    (h : l.Perm l') : sumPR central d l = sumPR central d l' :=
  List.Perm.sum_eq (h.map _)

/-- The sum `sumQR` only depends on the multiset of points. -/
lemma sumQR_perm {central d : CartesianVector} {l l' : List ClusterFitPoint}
    (h : l.Perm l') : sumQR central d l = sumQR central d l' :=
  List.Perm.sum_eq (h.map _)

/-- The sum `sumRR` only depends on the multiset of points. -/
lemma sumRR_perm {central d : CartesianVector} {l l' : List ClusterFitPoint}
    (h : l.Perm l') : sumRR central d l = sumRR central d l' :=
  List.Perm.sum_eq (h.map _)

/-- The sum `sumL` only depends on the multiset of points. -/
lemma sumL_perm {l l' : List ClusterFitPoint} (h : l.Perm l') : sumL l = sumL l' :=
  List.Perm.sum_eq (h.map _)

/-- The sum `sumLL` only depends on the multiset of points. -/
lemma sumLL_perm {l l' : List ClusterFitPoint} (h : l.Perm l') : sumLL l = sumLL l' :=
  List.Perm.sum_eq (h.map _)

/-- The position sum only depends on the multiset of points. -/
lemma posSum_perm {l l' : List ClusterFitPoint} (h : l.Perm l') : posSum l = posSum l' := by
  unfold posSum
  rw [List.Perm.sum_eq (h.map _), List.Perm.sum_eq (h.map _), List.Perm.sum_eq (h.map _)]

/-- The normal-vector sum only depends on the multiset of points. -/
lemma normalSum_perm {l l' : List ClusterFitPoint} (h : l.Perm l') :
    normalSum l = normalSum l' := by
  unfold normalSum
  rw [List.Perm.sum_eq (h.map _), List.Perm.sum_eq (h.map _), List.Perm.sum_eq (h.map _)]

/-- The regression denominator only depends on the multiset of points. -/
lemma denominatorR_perm {central d : CartesianVector} {l l' : List ClusterFitPoint}
    (h : l.Perm l') : denominatorR central d l = denominatorR central d l' := by
  unfold denominatorR
  rw [sumR_perm h, sumRR_perm h, sumWeights_perm h]

/-- The slope `aP` only depends on the multiset of points. -/
lemma aP_perm {central d : CartesianVector} {l l' : List ClusterFitPoint}
    (h : l.Perm l') : aP central d l = aP central d l' := by
  unfold aP
  rw [sumR_perm h, sumP_perm h, sumPR_perm h, sumWeights_perm h, denominatorR_perm h]

/-- The offset `bP` only depends on the multiset of points. -/
lemma bP_perm {central d : CartesianVector} {l l' : List ClusterFitPoint}
    (h : l.Perm l') : bP central d l = bP central d l' := by
  unfold bP
  rw [sumP_perm h, aP_perm h, sumR_perm h, sumWeights_perm h]

/-- The slope `aQ` only depends on the multiset of points. -/
lemma aQ_perm {central d : CartesianVector} {l l' : List ClusterFitPoint}
    (h : l.Perm l') : aQ central d l = aQ central d l' := by
  unfold aQ
  rw [sumR_perm h, sumQ_perm h, sumQR_perm h, sumWeights_perm h, denominatorR_perm h]

/-- The offset `bQ` only depends on the multiset of points. -/
lemma bQ_perm {central d : CartesianVector} {l l' : List ClusterFitPoint}
    (h : l.Perm l') : bQ central d l = bQ central d l' := by
  unfold bQ
  rw [sumQ_perm h, aQ_perm h, sumR_perm h, sumWeights_perm h]

/-- The slope-vector magnitude only depends on the multiset of points. -/
lemma fitMagnitude_perm {central d : CartesianVector} {l l' : List ClusterFitPoint}
    (h : l.Perm l') : fitMagnitude central d l = fitMagnitude central d l' := by
  unfold fitMagnitude
  rw [aP_perm h, aQ_perm h]

/-- The unflipped refined direction only depends on the multiset of points. -/
lemma dirRaw_perm {central d : CartesianVector} {l l' : List ClusterFitPoint}
    (h : l.Perm l') : dirRaw central d l = dirRaw central d l' := by
  unfold dirRaw
  rw [aP_perm h, aQ_perm h, fitMagnitude_perm h]

/-- The intercept only depends on the multiset of points. -/
lemma interceptV_perm {central d : CartesianVector} {l l' : List ClusterFitPoint}
    (h : l.Perm l') : interceptV central d l = interceptV central d l' := by
  unfold interceptV
  rw [bP_perm h, bQ_perm h]

/-- The uncorrected radial direction cosine only depends on the multiset of points. -/
lemma dirCosRaw_perm {central d : CartesianVector} {l l' : List ClusterFitPoint}
    (h : l.Perm l') : dirCosRaw central d l = dirCosRaw central d l' := by
  unfold dirCosRaw
  rw [dirRaw_perm h, interceptV_perm h]

/-- The step-6 canonicalized direction only depends on the multiset of points. -/
lemma dir6_perm {central d : CartesianVector} {l l' : List ClusterFitPoint}
    (h : l.Perm l') : dir6 central d l = dir6 central d l' := by
  unfold dir6
  rw [dirCosRaw_perm h, dirRaw_perm h]

/-- The stored radial direction cosine only depends on the multiset of points. -/
lemma dirCos6_perm {central d : CartesianVector} {l l' : List ClusterFitPoint}
    (h : l.Perm l') : dirCos6 central d l = dirCos6 central d l' := by
  unfold dirCos6
  rw [dirCosRaw_perm h]

/-- The chi-square sum `chi2P` only depends on the multiset of points. -/
lemma chi2P_perm {central d : CartesianVector} {l l' : List ClusterFitPoint}
    (h : l.Perm l') : chi2P central d l = chi2P central d l' := by
  unfold chi2P
  rw [aP_perm h, bP_perm h]
  exact List.Perm.sum_eq (h.map _)

/-- The chi-square sum `chi2Q` only depends on the multiset of points. -/
lemma chi2Q_perm {central d : CartesianVector} {l l' : List ClusterFitPoint}
    (h : l.Perm l') : chi2Q central d l = chi2Q central d l' := by
  unfold chi2Q
  rw [aQ_perm h, bQ_perm h]
  exact List.Perm.sum_eq (h.map _)

/-- The squared-displacement sum only depends on the multiset of points. -/
lemma rmsSum_perm {central d : CartesianVector} {l l' : List ClusterFitPoint}
    (h : l.Perm l') : rmsSum central d l = rmsSum central d l' := by
  unfold rmsSum
  rw [dir6_perm h, interceptV_perm h]
  exact List.Perm.sum_eq (h.map _)

/-- The sum `sumA` only depends on the multiset of points. -/
lemma sumA_perm {central d : CartesianVector} {l l' : List ClusterFitPoint}
    (h : l.Perm l') : sumA central d l = sumA central d l' := by
  unfold sumA
  rw [dir6_perm h, interceptV_perm h]
  exact List.Perm.sum_eq (h.map _)

/-- The sum `sumAL` only depends on the multiset of points. -/
lemma sumAL_perm {central d : CartesianVector} {l l' : List ClusterFitPoint}
    (h : l.Perm l') : sumAL central d l = sumAL central d l' := by
  unfold sumAL
  rw [dir6_perm h, interceptV_perm h]
  exact List.Perm.sum_eq (h.map _)

/-- The layer-correlation denominator only depends on the multiset of points. -/
lemma denominatorL_perm {l l' : List ClusterFitPoint} (h : l.Perm l') :
    denominatorL l = denominatorL l' := by
  unfold denominatorL
  rw [sumL_perm h, sumLL_perm h, sumWeights_perm h]

/-- The layer-correlation flip condition only depends on the multiset of points. -/
lemma flipCondition_perm {central d : CartesianVector} {l l' : List ClusterFitPoint}
    (h : l.Perm l') : flipCondition central d l = flipCondition central d l' := by
  unfold flipCondition
  rw [denominatorL_perm h, sumL_perm h, sumA_perm h, sumWeights_perm h, sumAL_perm h]

/-- The final stored direction only depends on the multiset of points. -/
lemma finalDirection_perm {central d : CartesianVector} {l l' : List ClusterFitPoint}
    (h : l.Perm l') : finalDirection central d l = finalDirection central d l' := by
  unfold finalDirection
  rw [flipCondition_perm h, dir6_perm h]

/-- The regression core only depends on the multiset of points it is given. -/
lemma performLinearFit_perm (central d : CartesianVector) (res : ClusterFitResult)
    {l l' : List ClusterFitPoint} (h : l.Perm l') :
    performLinearFit central d l res = performLinearFit central d l' res := by
  have hs : (sortPoints l).Perm (sortPoints l') :=
    ((sortPoints_perm l).trans h).trans (sortPoints_perm l').symm
  unfold performLinearFit
  rw [denominatorR_perm hs, finalDirection_perm hs, interceptV_perm hs, chi2P_perm hs,
    chi2Q_perm hs, sumWeights_perm hs, rmsSum_perm hs, dirCos6_perm hs]

end PandoraFit

namespace PandoraFit

open CartesianVector

/-- Evaluation form of the fit engine: because every quantity of the regression
is a sum over the point list, `fitPoints` can be expressed over the unsorted
input list. -/
lemma fitPoints_eq (l : List ClusterFitPoint) (res : ClusterFitResult) :
    fitPoints l res =
      if l.length < 2 then (.invalidParameter, res)
      else if |denominatorR (fitCentroid l) (fitInitialDir l) l| < doubleEps then
        (.failure, ClusterFitResult.reset)
      else
        (.success,
          { direction := finalDirection (fitCentroid l) (fitInitialDir l) l
            intercept := interceptV (fitCentroid l) (fitInitialDir l) l
            chi2 := (chi2P (fitCentroid l) (fitInitialDir l) l +
              chi2Q (fitCentroid l) (fitInitialDir l) l) / sumWeights l
            rms := Real.sqrt (rmsSum (fitCentroid l) (fitInitialDir l) l / sumWeights l)
            radialDirectionCosine := dirCos6 (fitCentroid l) (fitInitialDir l) l
            successFlag := true }) := by
  have hs : (sortPoints l).Perm l := sortPoints_perm l
  have hss : (sortPoints (sortPoints l)).Perm l := (sortPoints_perm _).trans hs
  unfold fitPoints performLinearFit fitCentroid fitInitialDir
  rw [sortPoints_length, sumWeights_perm hs, posSum_perm hs, normalSum_perm hs,
    denominatorR_perm hss, finalDirection_perm hss, interceptV_perm hss, chi2P_perm hss,
    chi2Q_perm hss, sumWeights_perm hss, rmsSum_perm hss, dirCos6_perm hss]

/-- Magnitude of a vector along the z axis with a nonnegative component. -/
lemma mag_vertical (t : ℝ) (h : 0 ≤ t) : mag ⟨0, 0, t⟩ = t := by
  have hm : magSq ⟨0, 0, t⟩ = t ^ 2 := by simp [magSq]; ring
  rw [mag, hm, Real.sqrt_sq h]

/-- Normalization of a vector along the positive z axis. -/
lemma unitVec_vertical (t : ℝ) (h : 0 < t) : unitVec ⟨0, 0, t⟩ = ⟨0, 0, 1⟩ := by
  rw [unitVec, mag_vertical t h.le]
  ext <;> simp [smul]
  field_simp

/-- The rotation angle cosine for an initial direction along the chosen axis. -/
lemma cosT_unitZ : cosT ⟨0, 0, 1⟩ = 1 := by
  have h1 : mag ⟨0, 0, 1⟩ = 1 := mag_vertical 1 (by norm_num)
  unfold cosT cosOpeningAngle chosenAxis
  rw [h1]
  simp [dot]

/-- The rotation angle sine for an initial direction along the chosen axis. -/
lemma sinT_unitZ : sinT ⟨0, 0, 1⟩ = 0 := by
  rw [sinT, cosT_unitZ, Real.arccos_one, Real.sin_zero]

/-- The rotation axis for an initial direction along the chosen axis falls into
the near-parallel branch. -/
lemma rotationAxis_unitZ : rotationAxis ⟨0, 0, 1⟩ = ⟨1, 0, 0⟩ := by
  rw [rotationAxis, cosT_unitZ]
  rw [if_pos (by norm_num)]

/-- The forward rotation for cosine one and sine zero about the fallback axis is
the identity. -/
lemma rotate_xAxis_id (v : CartesianVector) : rotate ⟨1, 0, 0⟩ 1 0 v = v := by
  unfold rotate
  ext <;> simp

/-- The inverse rotation for cosine one and sine zero about the fallback axis is
the identity. -/
lemma rotateBack_xAxis_id (v : CartesianVector) : rotateBack ⟨1, 0, 0⟩ 1 0 v = v := by
  unfold rotateBack
  ext <;> simp

/-- Rotated coordinates degenerate to centroid-relative coordinates when the
initial direction already points along the chosen axis. -/
lemma rotCoord_vertical (central : CartesianVector) (pt : ClusterFitPoint) :
    rotCoord central ⟨0, 0, 1⟩ pt = sub pt.position central := by
  rw [rotCoord, rotationAxis_unitZ, cosT_unitZ, sinT_unitZ, rotate_xAxis_id]

end PandoraFit

namespace PandoraFit

open CartesianVector

/-- Position sum of the flip example. -/
lemma posSum_exampleFlip : posSum exampleFlip = ⟨0, 0, 3⟩ := by
  simp [posSum, exampleFlip, examplePoint]
  norm_num

/-- Weight sum of the flip example. -/
lemma sumWeights_exampleFlip : sumWeights exampleFlip = 3 := by
  simp [sumWeights, exampleFlip]

/-- Centroid of the flip example. -/
lemma fitCentroid_exampleFlip : fitCentroid exampleFlip = ⟨0, 0, 1⟩ := by
  rw [fitCentroid, posSum_exampleFlip, sumWeights_exampleFlip]
  ext <;> simp [smul]

/-- Normal-vector sum of the flip example. -/
lemma normalSum_exampleFlip : normalSum exampleFlip = ⟨0, 0, 3⟩ := by
  simp [normalSum, exampleFlip, examplePoint]
  norm_num

/-- Initial direction estimate of the flip example. -/
lemma fitInitialDir_exampleFlip : fitInitialDir exampleFlip = ⟨0, 0, 1⟩ := by
  rw [fitInitialDir, normalSum_exampleFlip, unitVec_vertical 3 (by norm_num)]

/-- Sum of rotated p coordinates of the flip example. -/
lemma sumP_exampleFlip : sumP ⟨0, 0, 1⟩ ⟨0, 0, 1⟩ exampleFlip = 0 := by
  simp [sumP, exampleFlip, examplePoint, rotCoord_vertical, sub]

/-- Sum of rotated q coordinates of the flip example. -/
lemma sumQ_exampleFlip : sumQ ⟨0, 0, 1⟩ ⟨0, 0, 1⟩ exampleFlip = 0 := by
  simp [sumQ, exampleFlip, examplePoint, rotCoord_vertical, sub]

/-- Sum of rotated r coordinates of the flip example. -/
lemma sumR_exampleFlip : sumR ⟨0, 0, 1⟩ ⟨0, 0, 1⟩ exampleFlip = 0 := by
  simp [sumR, exampleFlip, examplePoint, rotCoord_vertical, sub]
  norm_num

/-- Sum of p times r of the flip example. -/
lemma sumPR_exampleFlip : sumPR ⟨0, 0, 1⟩ ⟨0, 0, 1⟩ exampleFlip = 0 := by
  simp [sumPR, exampleFlip, examplePoint, rotCoord_vertical, sub]

/-- Sum of q times r of the flip example. -/
lemma sumQR_exampleFlip : sumQR ⟨0, 0, 1⟩ ⟨0, 0, 1⟩ exampleFlip = 0 := by
  simp [sumQR, exampleFlip, examplePoint, rotCoord_vertical, sub]

/-- Sum of squared r coordinates of the flip example. -/
lemma sumRR_exampleFlip : sumRR ⟨0, 0, 1⟩ ⟨0, 0, 1⟩ exampleFlip = 2 := by
  simp [sumRR, exampleFlip, examplePoint, rotCoord_vertical, sub]
  norm_num

/-- The regression denominator of the flip example. -/
lemma denominatorR_exampleFlip : denominatorR ⟨0, 0, 1⟩ ⟨0, 0, 1⟩ exampleFlip = -6 := by
  rw [denominatorR, sumR_exampleFlip, sumRR_exampleFlip, sumWeights_exampleFlip]
  norm_num

/-- The slope `aP` of the flip example. -/
lemma aP_exampleFlip : aP ⟨0, 0, 1⟩ ⟨0, 0, 1⟩ exampleFlip = 0 := by
  rw [aP, sumR_exampleFlip, sumP_exampleFlip, sumPR_exampleFlip, sumWeights_exampleFlip,
    denominatorR_exampleFlip]
  norm_num

/-- The offset `bP` of the flip example. -/
lemma bP_exampleFlip : bP ⟨0, 0, 1⟩ ⟨0, 0, 1⟩ exampleFlip = 0 := by
  rw [bP, sumP_exampleFlip, aP_exampleFlip, sumR_exampleFlip, sumWeights_exampleFlip]
  norm_num

/-- The slope `aQ` of the flip example. -/
lemma aQ_exampleFlip : aQ ⟨0, 0, 1⟩ ⟨0, 0, 1⟩ exampleFlip = 0 := by
  rw [aQ, sumR_exampleFlip, sumQ_exampleFlip, sumQR_exampleFlip, sumWeights_exampleFlip,
    denominatorR_exampleFlip]
  norm_num

/-- The offset `bQ` of the flip example. -/
lemma bQ_exampleFlip : bQ ⟨0, 0, 1⟩ ⟨0, 0, 1⟩ exampleFlip = 0 := by
  rw [bQ, sumQ_exampleFlip, aQ_exampleFlip, sumR_exampleFlip, sumWeights_exampleFlip]
  norm_num

/-- The slope-vector normalization factor of the flip example. -/
lemma fitMagnitude_exampleFlip : fitMagnitude ⟨0, 0, 1⟩ ⟨0, 0, 1⟩ exampleFlip = 1 := by
  rw [fitMagnitude, aP_exampleFlip, aQ_exampleFlip]
  norm_num

/-- The unflipped refined direction of the flip example. -/
lemma dirRaw_exampleFlip : dirRaw ⟨0, 0, 1⟩ ⟨0, 0, 1⟩ exampleFlip = ⟨0, 0, 1⟩ := by
  rw [dirRaw, aP_exampleFlip, aQ_exampleFlip, fitMagnitude_exampleFlip, rotationAxis_unitZ,
    cosT_unitZ, sinT_unitZ, rotateBack_xAxis_id]
  norm_num

/-- The intercept of the flip example. -/
lemma interceptV_exampleFlip : interceptV ⟨0, 0, 1⟩ ⟨0, 0, 1⟩ exampleFlip = ⟨0, 0, 1⟩ := by
  rw [interceptV, bP_exampleFlip, bQ_exampleFlip, rotationAxis_unitZ, cosT_unitZ,
    sinT_unitZ, rotateBack_xAxis_id]
  ext <;> simp [add]

/-- The uncorrected radial direction cosine of the flip example. -/
lemma dirCosRaw_exampleFlip : dirCosRaw ⟨0, 0, 1⟩ ⟨0, 0, 1⟩ exampleFlip = 1 := by
  rw [dirCosRaw, dirRaw_exampleFlip, interceptV_exampleFlip, mag_vertical 1 (by norm_num)]
  simp [dot]

/-- The step-6 canonicalized direction of the flip example. -/
lemma dir6_exampleFlip : dir6 ⟨0, 0, 1⟩ ⟨0, 0, 1⟩ exampleFlip = ⟨0, 0, 1⟩ := by
  rw [dir6, dirCosRaw_exampleFlip, if_neg (by norm_num), dirRaw_exampleFlip]

/-- The stored radial direction cosine of the flip example. -/
lemma dirCos6_exampleFlip : dirCos6 ⟨0, 0, 1⟩ ⟨0, 0, 1⟩ exampleFlip = 1 := by
  rw [dirCos6, dirCosRaw_exampleFlip, if_neg (by norm_num)]

/-- The along-direction coordinate sum of the flip example. -/
lemma sumA_exampleFlip : sumA ⟨0, 0, 1⟩ ⟨0, 0, 1⟩ exampleFlip = 0 := by
  simp only [sumA, dir6_exampleFlip, interceptV_exampleFlip]
  norm_num [exampleFlip, examplePoint, dot, sub]

/-- The layer-index sum of the flip example. -/
lemma sumL_exampleFlip : sumL exampleFlip = 3 := by
  simp [sumL, exampleFlip, examplePoint]
  norm_num

/-- The product sum `sumAL` of the flip example. -/
lemma sumAL_exampleFlip : sumAL ⟨0, 0, 1⟩ ⟨0, 0, 1⟩ exampleFlip = -2 := by
  simp only [sumAL, dir6_exampleFlip, interceptV_exampleFlip]
  norm_num [exampleFlip, examplePoint, dot, sub]

/-- The squared layer-index sum of the flip example. -/
lemma sumLL_exampleFlip : sumLL exampleFlip = 5 := by
  simp [sumLL, exampleFlip, examplePoint]
  norm_num

/-- The layer-correlation denominator of the flip example. -/
lemma denominatorL_exampleFlip : denominatorL exampleFlip = -6 := by
  rw [denominatorL, sumL_exampleFlip, sumLL_exampleFlip, sumWeights_exampleFlip]
  norm_num

/-- The layer-correlation flip fires on the flip example. -/
lemma flipCondition_exampleFlip : flipCondition ⟨0, 0, 1⟩ ⟨0, 0, 1⟩ exampleFlip := by
  constructor
  · rw [denominatorL_exampleFlip]
    rw [doubleEps]
    norm_num
  · rw [sumL_exampleFlip, sumA_exampleFlip, sumWeights_exampleFlip, sumAL_exampleFlip,
      denominatorL_exampleFlip]
    norm_num

/-- The final stored direction of the flip example points opposite to the chosen
axis. -/
lemma finalDirection_exampleFlip :
    finalDirection ⟨0, 0, 1⟩ ⟨0, 0, 1⟩ exampleFlip = ⟨0, 0, -1⟩ := by
  rw [finalDirection, if_pos flipCondition_exampleFlip, dir6_exampleFlip]
  simp [neg]

/-- The in-plane chi-square sum `chi2P` of the flip example. -/
lemma chi2P_exampleFlip : chi2P ⟨0, 0, 1⟩ ⟨0, 0, 1⟩ exampleFlip = 0 := by
  simp only [chi2P, aP_exampleFlip, bP_exampleFlip]
  norm_num [rotCoord_vertical, exampleFlip, examplePoint, sub]

/-- The in-plane chi-square sum `chi2Q` of the flip example. -/
lemma chi2Q_exampleFlip : chi2Q ⟨0, 0, 1⟩ ⟨0, 0, 1⟩ exampleFlip = 0 := by
  simp only [chi2Q, aQ_exampleFlip, bQ_exampleFlip]
  norm_num [rotCoord_vertical, exampleFlip, examplePoint, sub]

/-- The squared-displacement sum of the flip example. -/
lemma rmsSum_exampleFlip : rmsSum ⟨0, 0, 1⟩ ⟨0, 0, 1⟩ exampleFlip = 0 := by
  simp only [rmsSum, dir6_exampleFlip, interceptV_exampleFlip]
  norm_num [exampleFlip, examplePoint, cross, sub, magSq]

/-- Full evaluation of the fit engine on the flip example: the fit succeeds and
the returned direction is the step-7-flipped one. -/
lemma fitPoints_exampleFlip :
    fitPoints exampleFlip ClusterFitResult.reset =
      (.success, ⟨⟨0, 0, -1⟩, ⟨0, 0, 1⟩, 0, 0, 1, true⟩) := by
  rw [fitPoints_eq]
  rw [if_neg (by simp [exampleFlip])]
  rw [fitCentroid_exampleFlip, fitInitialDir_exampleFlip]
  rw [if_neg (by rw [denominatorR_exampleFlip, doubleEps]; norm_num)]
  rw [finalDirection_exampleFlip, interceptV_exampleFlip, chi2P_exampleFlip,
    chi2Q_exampleFlip, sumWeights_exampleFlip, rmsSum_exampleFlip, dirCos6_exampleFlip]
  norm_num

end PandoraFit

namespace PandoraFit

open CartesianVector

/-- Squared magnitudes are nonnegative. -/
lemma magSq_nonneg (v : CartesianVector) : 0 ≤ magSq v := by
  simp only [magSq]
  nlinarith [mul_self_nonneg v.x, mul_self_nonneg v.y, mul_self_nonneg v.z]

/-- A vector with zero squared magnitude is the zero vector. -/
lemma magSq_eq_zero {v : CartesianVector} : magSq v = 0 ↔ v = ⟨0, 0, 0⟩ := by
  constructor
  · intro h
    simp only [magSq] at h
    have hx : v.x = 0 := mul_self_eq_zero.mp (by
      nlinarith [mul_self_nonneg v.x, mul_self_nonneg v.y, mul_self_nonneg v.z])
    have hy : v.y = 0 := mul_self_eq_zero.mp (by
      nlinarith [mul_self_nonneg v.x, mul_self_nonneg v.y, mul_self_nonneg v.z])
    have hz : v.z = 0 := mul_self_eq_zero.mp (by
      nlinarith [mul_self_nonneg v.x, mul_self_nonneg v.y, mul_self_nonneg v.z])
    ext <;> simp [hx, hy, hz]
  · intro h
    rw [h]
    simp [magSq]

/-- Magnitudes are nonnegative. -/
lemma mag_nonneg (v : CartesianVector) : 0 ≤ mag v := Real.sqrt_nonneg _

/-- The magnitude squares back to the squared magnitude. -/
lemma mag_sq (v : CartesianVector) : mag v * mag v = magSq v :=
  Real.mul_self_sqrt (magSq_nonneg v)

/-- Lagrange form of the Cauchy-Schwarz inequality in three dimensions. -/
lemma dot_sq_le (u v : CartesianVector) : dot u v * dot u v ≤ magSq u * magSq v := by
  simp only [dot, magSq]
  nlinarith [sq_nonneg (u.x * v.y - u.y * v.x), sq_nonneg (u.x * v.z - u.z * v.x),
    sq_nonneg (u.y * v.z - u.z * v.y)]

/-- Cauchy-Schwarz inequality for the dot product. -/
lemma abs_dot_le (u v : CartesianVector) : |dot u v| ≤ mag u * mag v := by
  rw [show |dot u v| = Real.sqrt (dot u v * dot u v) from (Real.sqrt_mul_self_eq_abs _).symm]
  rw [mag, mag, ← Real.sqrt_mul (magSq_nonneg u)]
  exact Real.sqrt_le_sqrt (dot_sq_le u v)

/-- The cosine of an opening angle lies in the interval from minus one to one. -/
lemma abs_cosOpeningAngle_le_one (u v : CartesianVector) : |cosOpeningAngle u v| ≤ 1 := by
  unfold cosOpeningAngle
  rcases eq_or_ne (mag u * mag v) 0 with h | h
  · rw [h, div_zero]
    norm_num
  · rw [abs_div, abs_of_nonneg (mul_nonneg (mag_nonneg u) (mag_nonneg v))]
    rw [div_le_one (lt_of_le_of_ne (mul_nonneg (mag_nonneg u) (mag_nonneg v)) (Ne.symm h))]
    exact abs_dot_le u v

/-- Pythagoras for the rotation angle: the sine computed as the sine of the
arccosine satisfies the circle identity. -/
lemma sinT_cosT (d : CartesianVector) : sinT d * sinT d + cosT d * cosT d = 1 := by
  have hb : |cosT d| ≤ 1 := abs_cosOpeningAngle_le_one d chosenAxis
  obtain ⟨hl, hr⟩ := abs_le.mp hb
  have h1 : 0 ≤ 1 - cosT d ^ 2 := by nlinarith
  rw [sinT, Real.sin_arccos, Real.mul_self_sqrt h1]
  ring

/-- Squared magnitude of a scaled vector. -/
lemma magSq_smul (a : ℝ) (v : CartesianVector) : magSq (smul a v) = a * a * magSq v := by
  simp only [magSq, smul]
  ring

/-- Normalizing a vector of nonzero magnitude yields a unit vector. -/
lemma unitVec_magSq {v : CartesianVector} (h : magSq v ≠ 0) : magSq (unitVec v) = 1 := by
  have hnn := magSq_nonneg v
  have hs : Real.sqrt (magSq v) ≠ 0 := by
    rw [Ne, Real.sqrt_eq_zero hnn]
    exact h
  rw [unitVec, magSq_smul, mag]
  field_simp

/-- The forward Rodrigues rotation preserves squared magnitudes when the axis is
a unit vector and the angle parameters lie on the unit circle. -/
lemma magSq_rotate (ax : CartesianVector) (c s : ℝ) (v : CartesianVector)
    (ha : magSq ax = 1) (hcs : c * c + s * s = 1) :
    magSq (rotate ax c s v) = magSq v := by
  simp only [magSq, rotate] at ha ⊢
  linear_combination
    ((v.x * v.x + v.y * v.y + v.z * v.z) -
        (ax.x * v.x + ax.y * v.y + ax.z * v.z) ^ 2) * hcs +
      (s * s * (v.x * v.x + v.y * v.y + v.z * v.z) +
        (1 - c) * (1 - c) * (ax.x * v.x + ax.y * v.y + ax.z * v.z) ^ 2) * ha

/-- The inverse rotation is the forward rotation with the sine negated. -/
lemma rotateBack_eq_rotate (ax : CartesianVector) (c s : ℝ) (v : CartesianVector) :
    rotateBack ax c s v = rotate ax c (-s) v := by
  unfold rotate rotateBack
  ext <;> ring

/-- The inverse Rodrigues rotation preserves squared magnitudes when the axis is
a unit vector and the angle parameters lie on the unit circle. -/
lemma magSq_rotateBack (ax : CartesianVector) (c s : ℝ) (v : CartesianVector)
    (ha : magSq ax = 1) (hcs : c * c + s * s = 1) :
    magSq (rotateBack ax c s v) = magSq v := by
  rw [rotateBack_eq_rotate]
  exact magSq_rotate ax c (-s) v ha (by linarith [hcs])

/-- The dot product of a vector with the chosen axis extracts the z component. -/
lemma dot_chosenAxis (d : CartesianVector) : dot d chosenAxis = d.z := by
  simp [dot, chosenAxis]

/-- Magnitude of the chosen axis. -/
lemma mag_chosenAxis : mag chosenAxis = 1 := by
  unfold chosenAxis
  exact mag_vertical 1 (by norm_num)

/-- The cross product with the chosen axis in components. -/
lemma cross_chosenAxis (d : CartesianVector) : cross d chosenAxis = ⟨d.y, -d.x, 0⟩ := by
  simp [cross, chosenAxis]

/-- The Rodrigues formulas collapse to uniform scaling by the cosine when the
axis degenerates to the zero vector. -/
lemma rotate_zeroAxis (c s : ℝ) (v : CartesianVector) :
    rotate ⟨0, 0, 0⟩ c s v = smul c v := by
  unfold rotate smul
  ext <;> simp

end PandoraFit

namespace PandoraFit

open CartesianVector

/-- On any run that passes the degeneracy check, the rotation axis is a unit
vector: the fallback axis is unit by construction, and in the cross-product
branch a vanishing cross product would force either a near-parallel direction
(contradicting the branch condition) or identically zero rotated coordinates
(contradicting the degeneracy check). -/
lemma rotationAxis_unit (central d : CartesianVector) (l : List ClusterFitPoint)
    (hden : ¬ |denominatorR central d l| < doubleEps) : magSq (rotationAxis d) = 1 := by
  unfold rotationAxis
  by_cases hc : |cosT d| > 99 / 100
  · rw [if_pos hc]
    simp [magSq]
  · rw [if_neg hc]
    apply unitVec_magSq
    intro h0
    rw [cross_chosenAxis] at h0
    simp only [magSq] at h0
    have hy : d.y = 0 := mul_self_eq_zero.mp (by nlinarith [mul_self_nonneg d.y, mul_self_nonneg d.x])
    have hx : d.x = 0 := mul_self_eq_zero.mp (by
      nlinarith [mul_self_nonneg d.y, mul_self_nonneg d.x])
    by_cases hz : d.z = 0
    · apply hden
      have hcos : cosT d = 0 := by
        unfold cosT cosOpeningAngle
        rw [dot_chosenAxis, hz, zero_div]
      have haxis : rotationAxis d = ⟨0, 0, 0⟩ := by
        unfold rotationAxis
        rw [if_neg hc, cross_chosenAxis, hx, hy]
        ext <;> simp [unitVec, smul]
      have hr : ∀ pt : ClusterFitPoint, (rotCoord central d pt).z = 0 := by
        intro pt
        rw [rotCoord, haxis, hcos, rotate_zeroAxis]
        simp [smul]
      have hsum : sumR central d l = 0 := by
        unfold sumR
        simp [hr]
      have hsumRR : sumRR central d l = 0 := by
        unfold sumRR
        simp [hr]
      rw [denominatorR, hsum, hsumRR, doubleEps]
      norm_num
    · exfalso
      apply hc
      have hm : magSq d = d.z ^ 2 := by
        unfold magSq
        rw [hx, hy]
        ring
      have hmag : mag d = |d.z| := by
        rw [mag, hm, Real.sqrt_sq_eq_abs]
      have hcos : cosT d = d.z / |d.z| := by
        unfold cosT cosOpeningAngle
        rw [dot_chosenAxis, hmag, mag_chosenAxis, mul_one]
      rw [hcos, abs_div, abs_abs, div_self (abs_ne_zero.mpr hz)]
      norm_num

/-- The slope-vector normalization factor is positive. -/
lemma fitMagnitude_pos (central d : CartesianVector) (l : List ClusterFitPoint) :
    0 < fitMagnitude central d l := by
  rw [fitMagnitude]
  apply Real.sqrt_pos.mpr
  nlinarith [mul_self_nonneg (aP central d l), mul_self_nonneg (aQ central d l)]

/-- The normalized slope vector is a unit vector. -/
lemma magSq_slopeVec (central d : CartesianVector) (l : List ClusterFitPoint) :
    magSq ⟨aP central d l / fitMagnitude central d l, aQ central d l / fitMagnitude central d l,
      1 / fitMagnitude central d l⟩ = 1 := by
  have hm : fitMagnitude central d l * fitMagnitude central d l =
      1 + aP central d l * aP central d l + aQ central d l * aQ central d l := by
    rw [fitMagnitude]
    apply Real.mul_self_sqrt
    nlinarith [mul_self_nonneg (aP central d l), mul_self_nonneg (aQ central d l)]
  have hne : fitMagnitude central d l ≠ 0 := (fitMagnitude_pos central d l).ne'
  simp only [magSq]
  field_simp
  linear_combination -hm

/-- On any run that passes the degeneracy check, the refined direction is a
unit vector. -/
lemma magSq_dirRaw (central d : CartesianVector) (l : List ClusterFitPoint)
    (hden : ¬ |denominatorR central d l| < doubleEps) :
    magSq (dirRaw central d l) = 1 := by
  have hcs : cosT d * cosT d + sinT d * sinT d = 1 := by
    have := sinT_cosT d
    linarith
  rw [dirRaw, magSq_rotateBack _ _ _ _ (rotationAxis_unit central d l hden)
    (by linarith [hcs]), magSq_slopeVec]

/-- The dot product of a negated vector. -/
lemma dot_neg (u v : CartesianVector) : dot (neg u) v = -dot u v := by
  simp only [dot, neg]
  ring

/-- Squared magnitude of a negated vector. -/
lemma magSq_neg (v : CartesianVector) : magSq (neg v) = magSq v := by
  simp only [magSq, neg]
  ring

/-- The step-6 canonicalization achieves a nonnegative dot product between the
canonicalized direction and the intercept. -/
lemma dot_dir6_nonneg (central d : CartesianVector) (l : List ClusterFitPoint) :
    0 ≤ dot (dir6 central d l) (interceptV central d l) := by
  unfold dir6
  by_cases h : dirCosRaw central d l < 0
  · rw [if_pos h, dot_neg]
    have hmag : 0 ≤ mag (interceptV central d l) := mag_nonneg _
    have hlt : dot (dirRaw central d l) (interceptV central d l) < 0 := by
      by_contra hge
      push_neg at hge
      have h2 : 0 ≤ dirCosRaw central d l := by
        rw [dirCosRaw]
        exact div_nonneg hge hmag
      linarith
    linarith
  · rw [if_neg h]
    push_neg at h
    rcases (mag_nonneg (interceptV central d l)).lt_or_eq with hm | hm
    · have h2 : dot (dirRaw central d l) (interceptV central d l) =
          dirCosRaw central d l * mag (interceptV central d l) := by
        rw [dirCosRaw, div_mul_cancel₀]
        exact hm.ne'
      rw [h2]
      exact mul_nonneg h (mag_nonneg _)
    · have h0 : magSq (interceptV central d l) = 0 := by
        rw [← mag_sq, ← hm, mul_zero]
      rw [magSq_eq_zero.mp h0]
      simp [dot]

/-- The stored cosine is the absolute value of the uncorrected cosine. -/
lemma dirCos6_eq_abs (central d : CartesianVector) (l : List ClusterFitPoint) :
    dirCos6 central d l = |dirCosRaw central d l| := by
  unfold dirCos6
  by_cases h : dirCosRaw central d l < 0
  · rw [if_pos h, abs_of_neg h]
  · rw [if_neg h, abs_of_nonneg (not_lt.mp h)]

/-- The stored cosine equals the cosine recomputed from the step-6 direction. -/
lemma dirCos6_eq_dot (central d : CartesianVector) (l : List ClusterFitPoint) :
    dirCos6 central d l =
      dot (dir6 central d l) (interceptV central d l) / mag (interceptV central d l) := by
  unfold dirCos6 dir6
  by_cases h : dirCosRaw central d l < 0
  · rw [if_pos h, if_pos h, dot_neg, neg_div]
    rw [dirCosRaw]
  · rw [if_neg h, if_neg h]
    rw [dirCosRaw]

/-- The stored cosine is nonnegative. -/
lemma dirCos6_nonneg (central d : CartesianVector) (l : List ClusterFitPoint) :
    0 ≤ dirCos6 central d l := by
  rw [dirCos6_eq_abs]
  exact abs_nonneg _

/-- On any run that passes the degeneracy check the stored cosine is at most one. -/
lemma dirCos6_le_one (central d : CartesianVector) (l : List ClusterFitPoint)
    (hden : ¬ |denominatorR central d l| < doubleEps) : dirCos6 central d l ≤ 1 := by
  rw [dirCos6_eq_abs, dirCosRaw, abs_div]
  have h1 : mag (dirRaw central d l) = 1 := by
    rw [mag, magSq_dirRaw central d l hden, Real.sqrt_one]
  rcases (mag_nonneg (interceptV central d l)).lt_or_eq with hm | hm
  · rw [abs_of_nonneg (mag_nonneg _), div_le_one hm]
    have h2 := abs_dot_le (dirRaw central d l) (interceptV central d l)
    rw [h1, one_mul] at h2
    exact h2
  · rw [← hm]
    simp

end PandoraFit

namespace PandoraFit

open CartesianVector

/-- The single-precision machine epsilon is positive. -/
lemma floatEps_pos : 0 < floatEps := by
  rw [floatEps]
  norm_num

/-- The double-precision machine epsilon is positive. -/
lemma doubleEps_pos : 0 < doubleEps := by
  rw [doubleEps]
  norm_num

/-- One epsilon-tolerant comparison step of the comparator: away from the
epsilon-sized band it decides by the strict order of the coordinate, and on an
exact tie it defers to the rest of the chain. -/
lemma tolStep (u v e : ℝ) (P Q : Prop) (he : 0 < e)
    (hsep : v - u = 0 ∨ |v - u| > e) (hPQ : P ↔ Q) :
    ((if |v - u| > e then v - u > e else P) ↔ (u < v ∨ (u = v ∧ Q))) := by
  rcases hsep with h | h
  · have huv : u = v := by
      have := sub_eq_zero.mp h
      linarith
  
    rw [if_neg (by rw [h, abs_zero]; exact not_lt.mpr he.le)]
    constructor
    · intro hp
      exact Or.inr ⟨huv, hPQ.mp hp⟩
    · rintro (hlt | ⟨-, hq⟩)
      · exact absurd hlt (by rw [huv]; exact lt_irrefl v)
      · exact hPQ.mpr hq
  · rw [if_pos h]
    constructor
    · intro hgt
      exact Or.inl (by linarith)
    · rintro (hlt | ⟨heq, -⟩)
      · rcases lt_abs.mp h with h1 | h1
        · exact h1
        · linarith
      · exfalso
        rw [heq, sub_self, abs_zero] at h
        linarith
  
/-- The first-layers collecting loop takes exactly the first `n - k` remaining
layers, each contributing all of its hits. -/
lemma collectFirstLayers_eq (n : ℕ) (k : ℕ) (L : List (ℕ × List CaloHit)) :
    collectFirstLayers n k L = (L.take (n - k)).flatMap (fun layer => layer.2) := by
  induction L generalizing k with
  | nil => simp [collectFirstLayers]
  | cons hd tl ih =>
    rw [collectFirstLayers]
    by_cases h : k + 1 > n
    · rw [if_pos h]
      have h0 : n - k = 0 := by omega
      simp [h0]
    · rw [if_neg h]
      have h1 : n - k = (n - (k + 1)) + 1 := by omega
      rw [h1]
      simp [ih (k + 1)]

/-- The centroid handed to the regression only depends on the multiset of
points. -/
lemma fitCentroid_perm {l l' : List ClusterFitPoint} (h : l.Perm l') :
    fitCentroid l = fitCentroid l' := by
  unfold fitCentroid
  rw [sumWeights_perm h, posSum_perm h]

/-- The initial direction handed to the regression only depends on the multiset
of points. -/
lemma fitInitialDir_perm {l l' : List ClusterFitPoint} (h : l.Perm l') :
    fitInitialDir l = fitInitialDir l' := by
  unfold fitInitialDir
  rw [normalSum_perm h]

/-- Every field of a successful fit result, extracted from the evaluation form
of the engine. -/
lemma fitPoints_success_eq {l : List ClusterFitPoint} {res : ClusterFitResult}
    {sc : StatusCode} {res' : ClusterFitResult}
    (h : fitPoints l res = (sc, res')) (hsc : sc = .success) :
    ¬ |denominatorR (fitCentroid l) (fitInitialDir l) l| < doubleEps ∧
      res' = { direction := finalDirection (fitCentroid l) (fitInitialDir l) l
               intercept := interceptV (fitCentroid l) (fitInitialDir l) l
               chi2 := (chi2P (fitCentroid l) (fitInitialDir l) l +
                 chi2Q (fitCentroid l) (fitInitialDir l) l) / sumWeights l
               rms := Real.sqrt (rmsSum (fitCentroid l) (fitInitialDir l) l / sumWeights l)
               radialDirectionCosine := dirCos6 (fitCentroid l) (fitInitialDir l) l
               successFlag := true } := by
  subst hsc
  rw [fitPoints_eq] at h
  by_cases h1 : l.length < 2
  · rw [if_pos h1] at h
    injection h with hsc hres
    exact absurd hsc (by simp)
  · rw [if_neg h1] at h
    by_cases h2 : |denominatorR (fitCentroid l) (fitInitialDir l) l| < doubleEps
    · rw [if_pos h2] at h
      injection h with hsc hres
      exact absurd hsc (by simp)
    · rw [if_neg h2] at h
      injection h with hsc hres
      exact ⟨h2, hres.symm⟩

/-- A non-success return of the fit engine leaves the result either untouched
or reset. -/
lemma fitPoints_nonsuccess {l : List ClusterFitPoint} {res : ClusterFitResult}
    {sc : StatusCode} {res' : ClusterFitResult}
    (h : fitPoints l res = (sc, res')) (hsc : sc ≠ .success) :
    res' = res ∨ res' = ClusterFitResult.reset := by
  rw [fitPoints_eq] at h
  by_cases h1 : l.length < 2
  · rw [if_pos h1] at h
    injection h with h2 h3
    exact Or.inl h3.symm
  · rw [if_neg h1] at h
    by_cases h2 : |denominatorR (fitCentroid l) (fitInitialDir l) l| < doubleEps
    · rw [if_pos h2] at h
      injection h with h3 h4
      exact Or.inr h4.symm
    · rw [if_neg h2] at h
      injection h with h3 h4
      exact absurd h3.symm hsc

/-- A non-success return of `FitStart` leaves the result either untouched or
reset. -/
lemma fitStart_nonsuccess {c : Cluster} {n : ℕ} {res : ClusterFitResult}
    {sc : StatusCode} {res' : ClusterFitResult}
    (h : fitStart c n res = .ok (sc, res')) (hsc : sc ≠ .success) :
    res' = res ∨ res' = ClusterFitResult.reset := by
  unfold fitStart at h
  by_cases h1 : n < 2
  · rw [if_pos h1] at h
    injection h with h2
    injection h2 with h3 h4
    exact Or.inl h4.symm
  · rw [if_neg h1] at h
    by_cases h2 : c.orderedCaloHitList.length = 0
    · rw [if_pos h2] at h
      injection h with h3
      injection h3 with h4 h5
      exact Or.inl h5.symm
    · rw [if_neg h2] at h
      by_cases h3 : c.orderedCaloHitList.length < 2
      · rw [if_pos h3] at h
        injection h with h4
        injection h4 with h5 h6
        exact Or.inl h6.symm
      · rw [if_neg h3] at h
        rcases hb : buildPoints (collectFirstLayers n 0 c.orderedCaloHitList) with er | pts
        · rw [hb] at h
          exact absurd h (by simp)
        · rw [hb] at h
          injection h with h4
          exact fitPoints_nonsuccess h4 hsc

/-- A non-success return of `FitLayerCentroids` leaves the result untouched,
reset, or merely flagged unsuccessful by the exception handler. -/
lemma fitLayerCentroids_nonsuccess {c : Cluster} {s e : ℕ} {res : ClusterFitResult}
    {sc : StatusCode} {res' : ClusterFitResult}
    (h : fitLayerCentroids c s e res = .ok (sc, res')) (hsc : sc ≠ .success) :
    res' = res ∨ res' = ClusterFitResult.reset ∨ res' = res.setSuccessFlag false := by
  unfold fitLayerCentroids at h
  by_cases h1 : s ≥ e
  · rw [if_pos h1] at h
    injection h with h2
    injection h2 with h3 h4
    exact Or.inl h4.symm
  · rw [if_neg h1] at h
    by_cases h2 : c.orderedCaloHitList.length = 0
    · rw [if_pos h2] at h
      injection h with h3
      injection h3 with h4 h5
      exact Or.inl h5.symm
    · rw [if_neg h2] at h
      by_cases h3 : c.orderedCaloHitList.length < 2
      · rw [if_pos h3] at h
        injection h with h4
        injection h4 with h5 h6
        exact Or.inl h6.symm
      · rw [if_neg h3] at h
        rcases hb : buildCentroids c s e c.orderedCaloHitList with er | pts
        · rw [hb] at h
          injection h with h4
          injection h4 with h5 h6
          exact Or.inr (Or.inr h6.symm)
        · rw [hb] at h
          injection h with h4
          rcases fitPoints_nonsuccess h4 hsc with h5 | h5
          · exact Or.inl h5
          · exact Or.inr (Or.inl h5)

end PandoraFit

namespace PandoraFit

open CartesianVector

/-- The rotation of the zero vector is the zero vector, whatever the axis and
angle. -/
lemma rotate_zeroVec (ax : CartesianVector) (c s : ℝ) :
    rotate ax c s ⟨0, 0, 0⟩ = ⟨0, 0, 0⟩ := by
  unfold rotate
  ext <;> simp

/-- Centroid of the coincident-points example. -/
lemma fitCentroid_degenerate : fitCentroid degenerateList = ⟨0, 0, 0⟩ := by
  unfold fitCentroid posSum sumWeights
  simp [degenerateList, degeneratePoint, smul]

/-- The regression denominator vanishes on the coincident-points example. -/
lemma denominatorR_degenerate :
    denominatorR (fitCentroid degenerateList) (fitInitialDir degenerateList)
      degenerateList = 0 := by
  rw [fitCentroid_degenerate]
  unfold denominatorR sumR sumRR rotCoord
  simp [degenerateList, degeneratePoint, CartesianVector.sub, rotate_zeroVec, sumWeights]

/-- Scaling by one is the identity. -/
lemma smul_one (v : CartesianVector) : smul 1 v = v := by
  unfold smul
  ext <;> simp

/-- Normalizing a vector that already has unit squared magnitude leaves it
unchanged. -/
lemma unitVec_of_magSq_one {v : CartesianVector} (h : magSq v = 1) : unitVec v = v := by
  rw [unitVec, mag, h, Real.sqrt_one]
  norm_num
  exact smul_one v

/-- Error codes of the centroid-collecting loop: the only exceptions it raises
are the empty-layer failure and the constructor's invalid-parameter exception. -/
lemma buildCentroids_error_codes (c : Cluster) (s e : ℕ) (L : List (ℕ × List CaloHit))
    (sc : StatusCode) (h : buildCentroids c s e L = .error sc) :
    sc = .failure ∨ sc = .invalidParameter := by
  induction L with
  | nil =>
    rw [buildCentroids] at h
    exact absurd h (by simp)
  | cons hd tl ih =>
    obtain ⟨k, hs⟩ := hd
    rw [buildCentroids] at h
    by_cases h1 : s > k
    · rw [if_pos h1] at h
      exact ih h
    · rw [if_neg h1] at h
      by_cases h2 : e < k
      · rw [if_pos h2] at h
        exact absurd h (by simp)
      · rw [if_neg h2] at h
        by_cases h3 : hs.length = 0
        · rw [if_pos h3] at h
          injection h with h4
          exact Or.inl h4.symm
        · rw [if_neg h3] at h
          unfold clusterFitPointMk at h
          by_cases h4 : layerCellSizeSum hs / (hs.length : ℝ) < floatEps
          · rw [if_pos h4] at h
            injection h with h5
            exact Or.inr h5.symm
          · rw [if_neg h4] at h
            rcases hb : buildCentroids c s e tl with er | pts
            · rw [hb] at h
              injection h with h5
              rw [h5] at hb
              exact ih hb
            · rw [hb] at h
              exact absurd h (by simp)

end PandoraFit

namespace PandoraFit

open CartesianVector

/-- On a cluster whose included layers each hold exactly one well-formed hit
whose position is the layer centroid, the centroid-collecting loop produces
exactly the fit points that the plain hit-collecting loop produces. -/
lemma buildCentroids_eq_buildPoints (c : Cluster) (s e : ℕ)
    (L : List (ℕ × List CaloHit))
    (hinv : ∀ k hs, (k, hs) ∈ selectRange s e L →
      ∃ h0 : CaloHit, hs = [h0] ∧ c.centroid k = h0.positionVector ∧
        h0.pseudoLayer = k ∧ magSq h0.cellNormalVector = 1 ∧
        floatEps ≤ h0.cellLengthScale) :
    ∃ pts, buildCentroids c s e L = .ok pts ∧
      buildPoints ((selectRange s e L).flatMap fun layer => layer.2) = .ok pts := by
  induction L with
  | nil =>
    exact ⟨[], rfl, rfl⟩
  | cons hd tl ih =>
    obtain ⟨k, hs⟩ := hd
    by_cases h1 : s > k
    · have hsel : selectRange s e ((k, hs) :: tl) = selectRange s e tl := by
        rw [selectRange, if_pos h1]
      rw [hsel] at hinv
      obtain ⟨pts, hbc, hbp⟩ := ih hinv
      refine ⟨pts, ?_, ?_⟩
      · rw [buildCentroids, if_pos h1]
        exact hbc
      · rw [hsel]
        exact hbp
    · by_cases h2 : e < k
      · have hsel : selectRange s e ((k, hs) :: tl) = [] := by
          rw [selectRange, if_neg h1, if_pos h2]
        refine ⟨[], ?_, ?_⟩
        · rw [buildCentroids, if_neg h1, if_pos h2]
        · rw [hsel]
          rfl
      · have hsel : selectRange s e ((k, hs) :: tl) = (k, hs) :: selectRange s e tl := by
          rw [selectRange, if_neg h1, if_neg h2]
        obtain ⟨h0, hh, hcent, hlayer, hnorm, hcell⟩ :=
          hinv k hs (by rw [hsel]; exact List.mem_cons_self _ _)
        subst hh
        obtain ⟨pts', hbc, hbp⟩ := ih (fun k' hs' hmem =>
          hinv k' hs' (by rw [hsel]; exact List.mem_cons_of_mem _ hmem))
        have hcs : layerCellSizeSum [h0] = h0.cellLengthScale := by
          simp [layerCellSizeSum]
        have hes : layerEnergySum [h0] = h0.inputEnergy := by
          simp [layerEnergySum]
        have hns : layerNormalSum [h0] = h0.cellNormalVector := by
          unfold layerNormalSum
          ext <;> simp
        have hmk : clusterFitPointMk (c.centroid k) (unitVec (layerNormalSum [h0]))
            (layerCellSizeSum [h0] / (([h0] : List CaloHit).length : ℝ))
            (layerEnergySum [h0] / (([h0] : List CaloHit).length : ℝ)) k =
            .ok ⟨h0.positionVector, h0.cellNormalVector, h0.cellLengthScale,
              h0.inputEnergy, h0.pseudoLayer⟩ := by
          rw [hcs, hes, hns]
          unfold clusterFitPointMk
          rw [if_neg (by
            simp only [List.length_singleton, Nat.cast_one, div_one]
            exact not_lt.mpr hcell)]
          rw [unitVec_of_magSq_one hnorm, unitVec_of_magSq_one hnorm, hcent, ← hlayer]
          simp
        have hfh : clusterFitPointFromHit h0 =
            .ok ⟨h0.positionVector, h0.cellNormalVector, h0.cellLengthScale,
              h0.inputEnergy, h0.pseudoLayer⟩ := by
          unfold clusterFitPointFromHit
          rw [if_neg (not_lt.mpr hcell)]
        refine ⟨⟨h0.positionVector, h0.cellNormalVector, h0.cellLengthScale,
          h0.inputEnergy, h0.pseudoLayer⟩ :: pts', ?_, ?_⟩
        · rw [buildCentroids, if_neg h1, if_neg h2, if_neg (by simp)]
          rw [hmk, hbc]
        · rw [hsel]
          simp only [List.flatMap_cons, List.singleton_append]
          rw [buildPoints, hfh, hbp]

end PandoraFit

namespace PandoraFit

open CartesianVector

/-- The comparator holds between the two well-separated comparator examples,
whose z coordinates are ascending. -/
lemma lt_c2a_c2b : ClusterFitPoint.lt c2a c2b := by
  unfold ClusterFitPoint.lt
  have hz : (CartesianVector.sub c2b.position c2a.position).z = 1 := by
    simp [c2a, c2b, CartesianVector.sub]
  rw [hz]
  rw [if_pos (by rw [abs_one, floatEps]; norm_num)]
  rw [floatEps]
  norm_num

/-- The comparator fails in the reverse direction on the well-separated pair. -/
lemma not_lt_c2b_c2a : ¬ ClusterFitPoint.lt c2b c2a := by
  unfold ClusterFitPoint.lt
  have hz : (CartesianVector.sub c2a.position c2b.position).z = -1 := by
    simp [c2a, c2b, CartesianVector.sub]
  rw [hz]
  rw [if_pos (by rw [abs_neg, abs_one, floatEps]; norm_num)]
  rw [floatEps]
  norm_num

/-- The comparator holds between the first two points of the epsilon-spaced
chain: the z difference sits exactly at the tolerance, so the energy tie-break
decides. -/
lemma lt_c2p_c2q : ClusterFitPoint.lt c2p c2q := by
  unfold ClusterFitPoint.lt
  have hz : (CartesianVector.sub c2q.position c2p.position).z = -floatEps := by
    simp [c2p, c2q, CartesianVector.sub]
  have hx : (CartesianVector.sub c2q.position c2p.position).x = 0 := by
    simp [c2p, c2q, CartesianVector.sub]
  have hy : (CartesianVector.sub c2q.position c2p.position).y = 0 := by
    simp [c2p, c2q, CartesianVector.sub]
  rw [hz, hx, hy]
  rw [if_neg (by rw [abs_neg, abs_of_pos floatEps_pos]; exact lt_irrefl floatEps)]
  rw [if_neg (by rw [abs_zero]; exact not_lt.mpr floatEps_pos.le)]
  rw [if_neg (by rw [abs_zero]; exact not_lt.mpr floatEps_pos.le)]
  show c2p.energy > c2q.energy
  norm_num [c2p, c2q]

/-- The comparator holds between the last two points of the epsilon-spaced
chain, again via the energy tie-break. -/
lemma lt_c2q_c2r : ClusterFitPoint.lt c2q c2r := by
  unfold ClusterFitPoint.lt
  have hz : (CartesianVector.sub c2r.position c2q.position).z = -floatEps := by
    simp only [c2q, c2r, CartesianVector.sub]
    ring
  have hx : (CartesianVector.sub c2r.position c2q.position).x = 0 := by
    simp [c2q, c2r, CartesianVector.sub]
  have hy : (CartesianVector.sub c2r.position c2q.position).y = 0 := by
    simp [c2q, c2r, CartesianVector.sub]
  rw [hz, hx, hy]
  rw [if_neg (by rw [abs_neg, abs_of_pos floatEps_pos]; exact lt_irrefl floatEps)]
  rw [if_neg (by rw [abs_zero]; exact not_lt.mpr floatEps_pos.le)]
  rw [if_neg (by rw [abs_zero]; exact not_lt.mpr floatEps_pos.le)]
  show c2q.energy > c2r.energy
  norm_num [c2q, c2r]

/-- The comparator fails between the endpoints of the epsilon-spaced chain: the
z difference now exceeds the tolerance and points the wrong way. -/
lemma not_lt_c2p_c2r : ¬ ClusterFitPoint.lt c2p c2r := by
  unfold ClusterFitPoint.lt
  have hz : (CartesianVector.sub c2r.position c2p.position).z = -(2 * floatEps) := by
    simp only [c2p, c2r, CartesianVector.sub]
    ring
  rw [hz]
  rw [if_pos (by rw [abs_neg, abs_of_pos (by linarith [floatEps_pos])]; linarith [floatEps_pos])]
  intro hcon
  linarith [floatEps_pos]

/-- C2 counterexample: the comparator orders the position keys in ascending,
not descending, order (`c2a` with the strictly smaller z compares below `c2b`),
and it is not transitive (the epsilon-spaced chain `c2p`, `c2q`, `c2r` gives
`lt c2p c2q` and `lt c2q c2r` but not `lt c2p c2r`), so it is not the claimed
strict total order by descending keys. -/
theorem C2_counterexample :
    (ClusterFitPoint.lt c2a c2b ∧ c2a.position.z < c2b.position.z ∧
      ¬ ClusterFitPoint.lt c2b c2a) ∧
    (ClusterFitPoint.lt c2p c2q ∧ ClusterFitPoint.lt c2q c2r ∧
      ¬ ClusterFitPoint.lt c2p c2r) := by
  refine ⟨⟨lt_c2a_c2b, ?_, not_lt_c2b_c2a⟩, lt_c2p_c2q, lt_c2q_c2r, not_lt_c2p_c2r⟩
  norm_num [c2a, c2b]

/-- C2 (amended): the comparator `ClusterFitPoint::operator<` is irreflexive and
asymmetric, and on every pair of points whose z, x and y differences are each
either exactly zero or larger than the single-precision machine epsilon it
coincides with the strict lexicographic order by ascending z, then ascending x,
then ascending y, then descending energy; within the epsilon tolerance band it
is not transitive, so it is not a strict total order on all points. -/
theorem C2_comparator_properties :
    (∀ a : ClusterFitPoint, ¬ ClusterFitPoint.lt a a) ∧
    (∀ a b : ClusterFitPoint, ClusterFitPoint.lt a b → ¬ ClusterFitPoint.lt b a) ∧
    (∀ a b : ClusterFitPoint, coordSeparated a b →
      (ClusterFitPoint.lt a b ↔ ascLexLt a b)) := by
  refine ⟨?_, ?_, ?_⟩
  · intro a
    unfold ClusterFitPoint.lt
    simp only [CartesianVector.sub, sub_self, abs_zero]
    rw [if_neg (not_lt.mpr floatEps_pos.le), if_neg (not_lt.mpr floatEps_pos.le),
      if_neg (not_lt.mpr floatEps_pos.le)]
    exact lt_irrefl a.energy
  · intro a b hab hba
    unfold ClusterFitPoint.lt at hab hba
    simp only [CartesianVector.sub] at hab hba
    by_cases h1 : |b.position.z - a.position.z| > floatEps
    · rw [if_pos h1] at hab
      rw [if_pos (by rw [abs_sub_comm]; exact h1)] at hba
      linarith [floatEps_pos]
    · rw [if_neg h1] at hab
      rw [if_neg (by rw [abs_sub_comm]; exact h1)] at hba
      by_cases h2 : |b.position.x - a.position.x| > floatEps
      · rw [if_pos h2] at hab
        rw [if_pos (by rw [abs_sub_comm]; exact h2)] at hba
        linarith [floatEps_pos]
      · rw [if_neg h2] at hab
        rw [if_neg (by rw [abs_sub_comm]; exact h2)] at hba
        by_cases h3 : |b.position.y - a.position.y| > floatEps
        · rw [if_pos h3] at hab
          rw [if_pos (by rw [abs_sub_comm]; exact h3)] at hba
          linarith [floatEps_pos]
        · rw [if_neg h3] at hab
          rw [if_neg (by rw [abs_sub_comm]; exact h3)] at hba
          exact absurd hba (not_lt.mpr hab.le)
  · intro a b hsep
    obtain ⟨hz, hx, hy⟩ := hsep
    unfold ClusterFitPoint.lt ascLexLt
    simp only [CartesianVector.sub]
    exact tolStep _ _ _ _ _ floatEps_pos hz
      (tolStep _ _ _ _ _ floatEps_pos hx
        (tolStep _ _ _ _ _ floatEps_pos hy Iff.rfl))

/-- C2 witness: the amended comparator characterization applied to the concrete
well-separated pair. -/
theorem C2_comparator_properties_witness :
    ClusterFitPoint.lt c2a c2b ↔ ascLexLt c2a c2b :=
  C2_comparator_properties.2.2 c2a c2b (by
    unfold coordSeparated c2a c2b
    norm_num [floatEps])

/-- C5: when the magnitude of the shared regression denominator is below the
double-precision machine epsilon, the fit engine returns `Failure`, leaves the
result in its reset state (so `successFlag` is false) and performs no further
computation, for every list of at least two fit points. -/
theorem C5_degenerate_denominator (l : List ClusterFitPoint) (res : ClusterFitResult)
    (h2 : 2 ≤ l.length)
    (hdeg : |denominatorR (fitCentroid l) (fitInitialDir l) l| < doubleEps) :
    fitPoints l res = (.failure, ClusterFitResult.reset) ∧
      ClusterFitResult.reset.successFlag = false := by
  refine ⟨?_, rfl⟩
  rw [fitPoints_eq, if_neg (by omega), if_pos hdeg]

/-- C5 witness: two coincident points make the regression denominator vanish,
so the fit fails. -/
theorem C5_degenerate_denominator_witness :
    fitPoints degenerateList ClusterFitResult.reset = (.failure, ClusterFitResult.reset) :=
  (C5_degenerate_denominator degenerateList ClusterFitResult.reset
    (by norm_num [degenerateList])
    (by rw [denominatorR_degenerate, abs_zero]; exact doubleEps_pos)).1

/-- C6: a fit point list with fewer than two points makes the fit engine return
`InvalidParameter`, and the caller-owned result is returned completely
unmodified (it is not even reset). -/
theorem C6_too_few_points (l : List ClusterFitPoint) (res : ClusterFitResult)
    (h : l.length < 2) : fitPoints l res = (.invalidParameter, res) := by
  rw [fitPoints_eq, if_pos h]

/-- C6 witness: the empty list with a stale result object. -/
theorem C6_too_few_points_witness :
    fitPoints [] staleResult = (.invalidParameter, staleResult) :=
  C6_too_few_points [] staleResult (by simp)

/-- C7: `FitStart` returns `InvalidParameter` whenever the requested layer count
is below two, `NotInitialized` on a cluster with no occupied layer, `OutOfRange`
on a cluster with exactly one occupied layer, and otherwise builds the fit
input from exactly the first `maxOccupiedLayers` occupied layers in iteration
(ascending) order, each contributing all of its hits, before delegating to the
fit engine. -/
theorem C7_fitStart_selection (pCluster : Cluster) (maxOccupiedLayers : ℕ)
    (res : ClusterFitResult) :
    (maxOccupiedLayers < 2 →
      fitStart pCluster maxOccupiedLayers res = .ok (.invalidParameter, res)) ∧
    (2 ≤ maxOccupiedLayers → pCluster.orderedCaloHitList.length = 0 →
      fitStart pCluster maxOccupiedLayers res = .ok (.notInitialized, res)) ∧
    (2 ≤ maxOccupiedLayers → pCluster.orderedCaloHitList.length = 1 →
      fitStart pCluster maxOccupiedLayers res = .ok (.outOfRange, res)) ∧
    (2 ≤ maxOccupiedLayers → 2 ≤ pCluster.orderedCaloHitList.length →
      fitStart pCluster maxOccupiedLayers res =
        Except.map (fun pts => fitPoints pts res)
          (buildPoints ((pCluster.orderedCaloHitList.take maxOccupiedLayers).flatMap
            fun layer => layer.2))) := by
  refine ⟨?_, ?_, ?_, ?_⟩
  · intro h
    unfold fitStart
    rw [if_pos h]
  · intro h1 h2
    unfold fitStart
    rw [if_neg (by omega), if_pos h2]
  · intro h1 h2
    unfold fitStart
    rw [if_neg (by omega), if_neg (by omega), if_pos (by omega)]
  · intro h1 h2
    unfold fitStart
    rw [if_neg (by omega), if_neg (by omega), if_neg (by omega)]
    rw [collectFirstLayers_eq, Nat.sub_zero]
    rcases hb : buildPoints ((pCluster.orderedCaloHitList.take maxOccupiedLayers).flatMap
      fun layer => layer.2) with er | pts <;> simp [Except.map]

/-- C7 witness: the selection equation applied to a concrete two-layer cluster. -/
theorem C7_fitStart_selection_witness :
    fitStart singletonGoodCluster 2 ClusterFitResult.reset =
      Except.map (fun pts => fitPoints pts ClusterFitResult.reset)
        (buildPoints ((singletonGoodCluster.orderedCaloHitList.take 2).flatMap
          fun layer => layer.2)) :=
  (C7_fitStart_selection singletonGoodCluster 2 ClusterFitResult.reset).2.2.2
    (by norm_num) (by simp [singletonGoodCluster])

/-- C8: the fit engine's output, status and result alike, is invariant under
permutation of the input list: every quantity of the regression is a sum over
the points, so the output depends only on the multiset of submitted points. -/
theorem C8_input_order_invariance (l1 l2 : List ClusterFitPoint)
    (res : ClusterFitResult) (h : l1.Perm l2) :
    fitPoints l1 res = fitPoints l2 res := by
  rw [fitPoints_eq, fitPoints_eq, h.length_eq, fitCentroid_perm h, fitInitialDir_perm h,
    denominatorR_perm h, finalDirection_perm h, interceptV_perm h, chi2P_perm h,
    chi2Q_perm h, sumWeights_perm h, rmsSum_perm h, dirCos6_perm h]

/-- C8 witness: swapping two concrete points leaves the output unchanged. -/
theorem C8_input_order_invariance_witness :
    fitPoints [examplePoint 0 0, examplePoint 1 1] ClusterFitResult.reset =
      fitPoints [examplePoint 1 1, examplePoint 0 0] ClusterFitResult.reset :=
  C8_input_order_invariance _ _ _
    (List.Perm.swap (examplePoint 1 1) (examplePoint 0 0) [])

end PandoraFit

namespace PandoraFit

open CartesianVector

/-- C1 counterexample: on the concrete successful fit `exampleFlip` the step-7
layer-correlation flip fires after the step-6 canonicalization, and the
returned direction satisfies `dot(direction, intercept) < 0`, refuting the
claim that every successful fit returns a direction with
`dot(direction, intercept) ≥ 0`. -/
theorem C1_counterexample :
    (fitPoints exampleFlip ClusterFitResult.reset).1 = StatusCode.success ∧
      (fitPoints exampleFlip ClusterFitResult.reset).2.successFlag = true ∧
      dot (fitPoints exampleFlip ClusterFitResult.reset).2.direction
        (fitPoints exampleFlip ClusterFitResult.reset).2.intercept < 0 := by
  rw [fitPoints_exampleFlip]
  refine ⟨rfl, rfl, ?_⟩
  show dot ⟨0, 0, -1⟩ ⟨0, 0, 1⟩ < 0
  norm_num [dot]

/-- C1 (amended): on every successful fit the step-6 canonicalized direction
satisfies `dot(direction, intercept) ≥ 0`; the returned direction is that
direction possibly negated once more by the step-7 layer-correlation flip,
which takes precedence, so `dot(direction, intercept) ≥ 0` holds for the
returned direction exactly when the flip does not fire, and the dot product is
nonpositive when it does. -/
theorem C1_outward_orientation (l : List ClusterFitPoint) (res : ClusterFitResult)
    (sc : StatusCode) (res' : ClusterFitResult)
    (h : fitPoints l res = (sc, res')) (hsc : sc = .success) :
    0 ≤ dot (dir6 (fitCentroid l) (fitInitialDir l) l) res'.intercept ∧
      res'.direction = (if flipCondition (fitCentroid l) (fitInitialDir l) l then
        neg (dir6 (fitCentroid l) (fitInitialDir l) l)
      else dir6 (fitCentroid l) (fitInitialDir l) l) ∧
      (¬ flipCondition (fitCentroid l) (fitInitialDir l) l →
        0 ≤ dot res'.direction res'.intercept) ∧
      (flipCondition (fitCentroid l) (fitInitialDir l) l →
        dot res'.direction res'.intercept ≤ 0) := by
  obtain ⟨hden, hres⟩ := fitPoints_success_eq h hsc
  subst hres
  refine ⟨dot_dir6_nonneg _ _ _, by simp only [finalDirection], ?_, ?_⟩
  · intro hnf
    show 0 ≤ dot (finalDirection _ _ _) (interceptV _ _ _)
    rw [finalDirection, if_neg hnf]
    exact dot_dir6_nonneg _ _ _
  · intro hf
    show dot (finalDirection _ _ _) (interceptV _ _ _) ≤ 0
    rw [finalDirection, if_pos hf, dot_neg]
    linarith [dot_dir6_nonneg (fitCentroid l) (fitInitialDir l) l]

/-- C1 witness: the amended orientation property applied to the concrete
successful fit `exampleFlip`. -/
theorem C1_outward_orientation_witness :
    0 ≤ dot (dir6 (fitCentroid exampleFlip) (fitInitialDir exampleFlip) exampleFlip)
      (fitPoints exampleFlip ClusterFitResult.reset).2.intercept :=
  (C1_outward_orientation exampleFlip ClusterFitResult.reset
    (fitPoints exampleFlip ClusterFitResult.reset).1
    (fitPoints exampleFlip ClusterFitResult.reset).2
    rfl (by rw [fitPoints_exampleFlip])).1

/-- C10: on every successful fit the stored radial direction cosine lies in the
interval from zero to one; it always equals the cosine computed from the
pre-flip (step-6) direction and the intercept, and when the step-7
layer-correlation flip fires the returned direction is the negation of that
pre-flip direction while the stored cosine is left untouched. -/
theorem C10_radial_direction_cosine (l : List ClusterFitPoint) (res : ClusterFitResult)
    (sc : StatusCode) (res' : ClusterFitResult)
    (h : fitPoints l res = (sc, res')) (hsc : sc = .success) :
    0 ≤ res'.radialDirectionCosine ∧ res'.radialDirectionCosine ≤ 1 ∧
      res'.radialDirectionCosine =
        dot (dir6 (fitCentroid l) (fitInitialDir l) l) res'.intercept /
          mag res'.intercept ∧
      (flipCondition (fitCentroid l) (fitInitialDir l) l →
        res'.direction = neg (dir6 (fitCentroid l) (fitInitialDir l) l)) := by
  obtain ⟨hden, hres⟩ := fitPoints_success_eq h hsc
  subst hres
  refine ⟨dirCos6_nonneg _ _ _, dirCos6_le_one _ _ _ hden, dirCos6_eq_dot _ _ _, ?_⟩
  intro hf
  show finalDirection _ _ _ = _
  rw [finalDirection, if_pos hf]

/-- C10 witness: the cosine bound applied to the concrete successful fit
`exampleFlip`, on which the step-7 flip fires. -/
theorem C10_radial_direction_cosine_witness :
    (fitPoints exampleFlip ClusterFitResult.reset).2.radialDirectionCosine ≤ 1 :=
  (C10_radial_direction_cosine exampleFlip ClusterFitResult.reset
    (fitPoints exampleFlip ClusterFitResult.reset).1
    (fitPoints exampleFlip ClusterFitResult.reset).2
    rfl (by rw [fitPoints_exampleFlip])).2.1

end PandoraFit

namespace PandoraFit

open CartesianVector

/-- C3 counterexample: a cluster whose first layer holds a hit with zero cell
length scale makes the `ClusterFitPoint` constructor throw inside `FitStart`,
and since `FitStart` has no exception handler the exception escapes the public
entry point instead of being converted into a `Failure` status. -/
theorem C3_counterexample :
    fitStart badCluster 2 ClusterFitResult.reset = .error .invalidParameter := by
  unfold fitStart
  rw [if_neg (by norm_num), if_neg (by simp [badCluster]), if_neg (by simp [badCluster])]
  have hcollect : collectFirstLayers 2 0 badCluster.orderedCaloHitList =
      [badHit, exampleHit 1 1] := rfl
  rw [hcollect]
  have hb : clusterFitPointFromHit badHit = .error .invalidParameter := by
    unfold clusterFitPointFromHit
    rw [if_pos (by rw [floatEps]; norm_num [badHit])]
  rw [buildPoints, hb]

/-- C3 (amended): `FitLayerCentroids` never lets an exception escape: every
exception raised while collecting the per-layer centroids is caught at the
entry-point boundary and converted into its own status code together with
`successFlag = false`; the possible codes are `Failure` (unexpectedly empty
layer) and `InvalidParameter` (mean cell size below machine epsilon).  The
plain-hit entry points have no handler, so constructor exceptions escape them,
as the counterexample shows. -/
theorem C3_exception_containment :
    (∀ (c : Cluster) (s e : ℕ) (res : ClusterFitResult),
      ∃ out, fitLayerCentroids c s e res = .ok out) ∧
    (∀ (c : Cluster) (s e : ℕ) (res : ClusterFitResult) (sc : StatusCode),
      s < e → 2 ≤ c.orderedCaloHitList.length →
      buildCentroids c s e c.orderedCaloHitList = .error sc →
      fitLayerCentroids c s e res = .ok (sc, res.setSuccessFlag false)) ∧
    (∀ (c : Cluster) (s e : ℕ) (L : List (ℕ × List CaloHit)) (sc : StatusCode),
      buildCentroids c s e L = .error sc → sc = .failure ∨ sc = .invalidParameter) := by
  refine ⟨?_, ?_, ?_⟩
  · intro c s e res
    unfold fitLayerCentroids
    by_cases h1 : s ≥ e
    · exact ⟨(.invalidParameter, res), by rw [if_pos h1]⟩
    · rw [if_neg h1]
      by_cases h2 : c.orderedCaloHitList.length = 0
      · exact ⟨(.notInitialized, res), by rw [if_pos h2]⟩
      · rw [if_neg h2]
        by_cases h3 : c.orderedCaloHitList.length < 2
        · exact ⟨(.outOfRange, res), by rw [if_pos h3]⟩
        · rw [if_neg h3]
          rcases hb : buildCentroids c s e c.orderedCaloHitList with er | pts
          · exact ⟨(er, res.setSuccessFlag false), rfl⟩
          · exact ⟨fitPoints pts res, rfl⟩
  · intro c s e res sc h1 h2 hb
    unfold fitLayerCentroids
    rw [if_neg (by omega), if_neg (by omega), if_neg (by omega), hb]
  · intro c s e L sc h
    exact buildCentroids_error_codes c s e L sc h

/-- C3 witness: the catch-and-convert behaviour applied to a concrete cluster
with an unexpectedly empty included layer. -/
theorem C3_exception_containment_witness :
    fitLayerCentroids emptyLayerCluster 0 1 ClusterFitResult.reset =
      .ok (.failure, ClusterFitResult.reset.setSuccessFlag false) :=
  C3_exception_containment.2.1 emptyLayerCluster 0 1 ClusterFitResult.reset .failure
    (by norm_num) (by simp [emptyLayerCluster]) rfl

/-- C4 counterexample: `FitStart` on an empty cluster returns the non-success
status `NotInitialized` yet hands back the caller's stale result object
unmodified, which is not the reset state. -/
theorem C4_counterexample :
    fitStart emptyCluster 5 staleResult = .ok (.notInitialized, staleResult) ∧
      staleResult ≠ ClusterFitResult.reset := by
  constructor
  · rfl
  · intro hcontra
    have h1 := congrArg ClusterFitResult.chi2 hcontra
    simp [staleResult, ClusterFitResult.reset] at h1

/-- C4 (amended): a non-success return leaves the caller-owned result either
completely unmodified (precondition failures checked before the engine resets
it), or in the reset state (numeric degeneracy detected after the reset), or,
for the exception handler of `FitLayerCentroids`, equal to the incoming result
with only the success flag forced to false. -/
theorem C4_result_on_failure :
    (∀ (l : List ClusterFitPoint) (res : ClusterFitResult) (sc : StatusCode)
      (res' : ClusterFitResult), fitPoints l res = (sc, res') → sc ≠ .success →
        res' = res ∨ res' = ClusterFitResult.reset) ∧
    (∀ (c : Cluster) (n : ℕ) (res : ClusterFitResult) (sc : StatusCode)
      (res' : ClusterFitResult), fitStart c n res = .ok (sc, res') → sc ≠ .success →
        res' = res ∨ res' = ClusterFitResult.reset) ∧
    (∀ (c : Cluster) (s e : ℕ) (res : ClusterFitResult) (sc : StatusCode)
      (res' : ClusterFitResult), fitLayerCentroids c s e res = .ok (sc, res') →
        sc ≠ .success →
        res' = res ∨ res' = ClusterFitResult.reset ∨
          res' = res.setSuccessFlag false) :=
  ⟨fun _ _ _ _ h hsc => fitPoints_nonsuccess h hsc,
    fun _ _ _ _ _ h hsc => fitStart_nonsuccess h hsc,
    fun _ _ _ _ _ _ h hsc => fitLayerCentroids_nonsuccess h hsc⟩

/-- C4 witness: the non-success state description applied to the fit engine on
an empty list with a stale result. -/
theorem C4_result_on_failure_witness :
    staleResult = staleResult ∨ staleResult = ClusterFitResult.reset :=
  C4_result_on_failure.1 [] staleResult .invalidParameter staleResult
    (by rw [fitPoints_eq, if_pos (by simp)]) (by simp)

end PandoraFit

namespace PandoraFit

open CartesianVector

/-- C9 counterexample: a cluster whose included layers each hold exactly one hit
with the layer centroid at the hit position, but whose first hit has zero cell
length scale.  The constructor exception escapes `FitLayers` (which has no
handler) while `FitLayerCentroids` catches it and returns normally, so the two
entry points do not produce the same outcome. -/
theorem C9_counterexample :
    fitLayers singletonBadCluster 0 1 ClusterFitResult.reset =
        .error .invalidParameter ∧
      fitLayerCentroids singletonBadCluster 0 1 ClusterFitResult.reset =
        .ok (.invalidParameter, ClusterFitResult.reset.setSuccessFlag false) ∧
      fitLayerCentroids singletonBadCluster 0 1 ClusterFitResult.reset ≠
        fitLayers singletonBadCluster 0 1 ClusterFitResult.reset := by
  have hlay : fitLayers singletonBadCluster 0 1 ClusterFitResult.reset =
      .error .invalidParameter := by
    unfold fitLayers
    rw [if_neg (by norm_num), if_neg (by simp [singletonBadCluster]),
      if_neg (by simp [singletonBadCluster])]
    have hsel : (selectRange 0 1 singletonBadCluster.orderedCaloHitList).flatMap
        (fun layer => layer.2) = [badHit, exampleHit 1 1] := rfl
    rw [hsel]
    have hb : clusterFitPointFromHit badHit = .error .invalidParameter := by
      unfold clusterFitPointFromHit
      rw [if_pos (by rw [floatEps]; norm_num [badHit])]
    rw [buildPoints, hb]
  have hcen : fitLayerCentroids singletonBadCluster 0 1 ClusterFitResult.reset =
      .ok (.invalidParameter, ClusterFitResult.reset.setSuccessFlag false) := by
    unfold fitLayerCentroids
    rw [if_neg (by norm_num), if_neg (by simp [singletonBadCluster]),
      if_neg (by simp [singletonBadCluster])]
    have hbc : buildCentroids singletonBadCluster 0 1
        singletonBadCluster.orderedCaloHitList = .error .invalidParameter := by
      rw [show singletonBadCluster.orderedCaloHitList =
        [(0, [badHit]), (1, [exampleHit 1 1])] from rfl]
      rw [buildCentroids]
      rw [if_neg (by norm_num), if_neg (by norm_num), if_neg (by simp)]
      have hmk : clusterFitPointMk (singletonBadCluster.centroid 0)
          (unitVec (layerNormalSum [badHit]))
          (layerCellSizeSum [badHit] / (([badHit] : List CaloHit).length : ℝ))
          (layerEnergySum [badHit] / (([badHit] : List CaloHit).length : ℝ)) 0 =
          .error .invalidParameter := by
        unfold clusterFitPointMk
        rw [if_pos (by norm_num [layerCellSizeSum, badHit, floatEps])]
      rw [hmk]
    rw [hbc]
  refine ⟨hlay, hcen, ?_⟩
  rw [hlay, hcen]
  simp

/-- C9 (amended): on every cluster whose included layers each hold exactly one
hit satisfying the documented input invariants (the layer centroid coincides
with the hit position, the hit's layer index matches its layer key, the cell
normal is a unit vector, and the cell length scale is at least the machine
epsilon), the per-layer-centroid fit coincides exactly, in status and result,
with the ordinary layer-range fit over the same cluster and range. -/
theorem C9_centroid_reduces_to_point_fit (c : Cluster) (s e : ℕ)
    (res : ClusterFitResult)
    (hinv : ∀ k hs, (k, hs) ∈ selectRange s e c.orderedCaloHitList →
      ∃ h0 : CaloHit, hs = [h0] ∧ c.centroid k = h0.positionVector ∧
        h0.pseudoLayer = k ∧ magSq h0.cellNormalVector = 1 ∧
        floatEps ≤ h0.cellLengthScale) :
    fitLayerCentroids c s e res = fitLayers c s e res := by
  obtain ⟨pts, hbc, hbp⟩ := buildCentroids_eq_buildPoints c s e c.orderedCaloHitList hinv
  unfold fitLayerCentroids fitLayers
  rw [hbc, hbp]

/-- C9 witness: the equivalence applied to a concrete two-layer cluster with one
well-formed hit per layer. -/
theorem C9_centroid_reduces_to_point_fit_witness :
    fitLayerCentroids singletonGoodCluster 0 1 ClusterFitResult.reset =
      fitLayers singletonGoodCluster 0 1 ClusterFitResult.reset := by
  apply C9_centroid_reduces_to_point_fit
  intro k hs hmem
  rw [show selectRange 0 1 singletonGoodCluster.orderedCaloHitList =
    [(0, [exampleHit 0 0]), (1, [exampleHit 1 1])] from rfl] at hmem
  simp only [List.mem_cons, List.not_mem_nil, or_false, Prod.mk.injEq] at hmem
  rcases hmem with ⟨hk, hhs⟩ | ⟨hk, hhs⟩
  · subst hk
    subst hhs
    refine ⟨exampleHit 0 0, rfl, rfl, rfl, ?_, ?_⟩
    · norm_num [magSq, exampleHit]
    · rw [floatEps]
      norm_num [exampleHit]
  · subst hk
    subst hhs
    refine ⟨exampleHit 1 1, rfl, rfl, rfl, ?_, ?_⟩
    · norm_num [magSq, exampleHit]
    · rw [floatEps]
      norm_num [exampleHit]

end PandoraFit
